import Mathlib

/-!
# Verification of the entity-resolution pipeline of `NER_flair_streamlit.py`

This file is a shallow embedding, in Lean 4, of the algorithmic core of the
`EntityLinker` class: entity extraction with type mapping and validation,
overlap resolution, geographical-context detection, the knowledge-linking
chain (Wikidata, Wikipedia, Britannica, OpenStreetMap) and the layered
geocoding resolver.  External collaborators (the Flair tagger, the Python
`re` engine used only for the address `finditer`, HTTP services and the
geopy library) are modelled as oracle inputs; everything the repository
itself computes is translated directly from the source.

Python floats that merely pass through the pipeline (latitude/longitude
values received from geocoding services) are modelled as rationals: no
arithmetic is ever performed on them by the source, only storage and
presence tests.  Character classification (`isalpha`, `isupper`, whitespace)
is modelled over the ASCII range by Lean's `Char` predicates.
-/

namespace NERFlair

/-! ## Python string primitives -/

/-- Python `str.split()` with no argument: split on runs of whitespace,
dropping empty fields.  `acc` is the (reversed) current word. -/
def pySplitAux : List Char → List Char → List String
  | [], acc => if acc.isEmpty then [] else [(acc.reverse).asString]
  | c :: rest, acc =>
    if c.isWhitespace then
      if acc.isEmpty then pySplitAux rest []
      else (acc.reverse).asString :: pySplitAux rest []
    else pySplitAux rest (c :: acc)

/-- Python `str.split()` with no argument. -/
def pySplit (s : String) : List String :=
  pySplitAux s.data []

/-- Python `str.strip()`: remove leading and trailing whitespace. -/
def pyStrip (s : String) : String :=
  (((s.data.dropWhile Char.isWhitespace).reverse.dropWhile Char.isWhitespace).reverse).asString

/-- Python `str.isalpha()`: non-empty and every character alphabetic. -/
def pyIsAlpha (s : String) : Bool :=
  !s.data.isEmpty && s.data.all Char.isAlpha

/-- Python `str.lower()` on a character list (ASCII case folding). -/
def pyLowerL (l : List Char) : List Char :=
  l.map Char.toLower

/-- Python `str.lower()`. -/
def pyLower (s : String) : String :=
  (pyLowerL s.data).asString

/-- Python substring test `needle in hay` on character lists. -/
def strInL (needle : List Char) : List Char → Bool
  | [] => needle.isEmpty
  | c :: rest => needle.isPrefixOf (c :: rest) || strInL needle rest

/-- Python substring test `needle in hay` for strings. -/
def pyIn (needle hay : String) : Bool :=
  strInL needle.data hay.data

/-- Python truthiness of an optional string field (`entity.get(k)`):
missing keys and empty strings are falsy. -/
def pyTruthy : Option String → Bool
  | none => false
  | some s => !s.data.isEmpty

/-- `list(dict.fromkeys(xs))`: drop later duplicates, keeping first
occurrences in order. -/
def pyDedup (l : List String) : List String :=
  l.foldl (fun acc x => if x ∈ acc then acc else acc ++ [x]) []

/-- Python `str.replace(' ', '_')` (single-character replacement). -/
def pyReplaceSpace (s : String) : String :=
  (s.data.map (fun c => if c = ' ' then '_' else c)).asString

/-! ## The entity record

The source passes entities around as dictionaries.  The fields below are
exactly the keys the pipeline reads or writes; absent keys are `none`
(`entity.get(k)` returns `None`).  `endPos` models the `end` key (`end` is a
Lean keyword). -/

structure Entity where
  text : String
  type : String
  start : Nat
  endPos : Nat
  /-- the raw Flair label, stored under the `label` key by `extract_entities`;
  address entities have no such key, modelled by the empty string -/
  label : String := ""
  wikidata_url : Option String := none
  wikidata_description : Option String := none
  wikipedia_url : Option String := none
  wikipedia_title : Option String := none
  wikipedia_description : Option String := none
  britannica_url : Option String := none
  britannica_title : Option String := none
  openstreetmap_url : Option String := none
  openstreetmap_display_name : Option String := none
  latitude : Option Rat := none
  longitude : Option Rat := none
  location_name : Option String := none
  geocoding_source : Option String := none
  search_term_used : Option String := none
deriving DecidableEq, Repr

/-- A fresh entity as produced by the extraction stage: only
`text`/`type`/`start`/`end`(`/label`) are present. -/
def mkEntity (t ty : String) (s e : Nat) (lab : String) : Entity :=
  { text := t, type := ty, start := s, endPos := e, label := lab }

/-! ## TypeMapper: `_map_flair_entity_type` -/

/-- The fixed lookup table of `_map_flair_entity_type`, in source order. -/
def flairMapping : List (String × String) :=
  [("PER", "PERSON"),
   ("ORG", "ORGANIZATION"),
   ("LOC", "LOCATION"),
   ("MISC", "MISC"),
   ("B-PER", "PERSON"),
   ("I-PER", "PERSON"),
   ("B-ORG", "ORGANIZATION"),
   ("I-ORG", "ORGANIZATION"),
   ("B-LOC", "LOCATION"),
   ("I-LOC", "LOCATION"),
   ("B-MISC", "MISC"),
   ("I-MISC", "MISC"),
   ("PERSON", "PERSON"),
   ("ORGANIZATION", "ORGANIZATION"),
   ("GPE", "LOCATION"),
   ("LOCATION", "LOCATION"),
   ("FACILITY", "LOCATION"),
   ("PRODUCT", "MISC"),
   ("EVENT", "MISC"),
   ("WORK_OF_ART", "MISC"),
   ("LANGUAGE", "MISC")]

/-- `_map_flair_entity_type`: `mapping.get(flair_label, flair_label)`. -/
def mapFlairEntityType (flairLabel : String) : String :=
  match flairMapping.find? (fun p => p.1 = flairLabel) with
  | some p => p.2
  | none => flairLabel

/-! ## EntityValidator: `_is_valid_entity`

The third parameter of the Python method (the Flair span object) is never
used by its body, so it is omitted here. -/

/-- `_is_valid_entity(entity_text, entity_type, flair_span)`. -/
def isValidEntity (entityText : String) (entityType : String) : Bool :=
  if (pyStrip entityText).length ≤ 1 then false
  else if entityType = "PERSON" then
    (pySplit entityText).all
      (fun word => if pyIsAlpha word then word.front.isUpper else true)
  else true

/-! ## Address extraction: `_extract_addresses`

The two regex patterns are run by the external Python `re` engine; the list
of matches (matched text with its span) is an oracle input here.  The method
turns every match into an `ADDRESS` entity. -/

/-- One `re.finditer` match: `match.group(), match.start(), match.end()`. -/
structure AddressMatch where
  text : String
  start : Nat
  endPos : Nat
deriving DecidableEq, Repr

/-- `_extract_addresses`, given the matches produced by the `re` engine. -/
def extractAddresses (ms : List AddressMatch) : List Entity :=
  ms.map (fun m => mkEntity m.text "ADDRESS" m.start m.endPos "")

/-! ## OverlapResolver: `_remove_overlapping_entities` -/

/-- The overlap test of the inner loop:
`entity['start'] < existing['end'] and entity['end'] > existing['start']`. -/
def overlapsB (entity existing : Entity) : Bool :=
  decide (entity.start < existing.endPos) && decide (entity.endPos > existing.start)

/-- One iteration of the outer loop of `_remove_overlapping_entities`: scan
`filtered` for the first overlapping entity; if the candidate is strictly
longer (by `len(text)`) remove that entity (Python `list.remove`: first
equal element) and append the candidate, otherwise drop the candidate; if
nothing overlaps, append the candidate. -/
def insertEntity (filtered : List Entity) (entity : Entity) : List Entity :=
  match filtered.find? (fun existing => overlapsB entity existing) with
  | none => filtered ++ [entity]
  | some existing =>
    if existing.text.length < entity.text.length then
      (filtered.erase existing) ++ [entity]
    else
      filtered

/-- The sort key of `entities.sort(key=lambda x: x['start'])`. -/
def startLE (a b : Entity) : Prop := a.start ≤ b.start

instance : DecidableRel startLE := fun a b => Nat.decLe a.start b.start

instance : IsTotal Entity startLE := ⟨fun a b => Nat.le_total a.start b.start⟩

instance : IsTrans Entity startLE := ⟨fun _ _ _ => Nat.le_trans⟩

/-- `_remove_overlapping_entities`: stable sort by `start` (Python's `sort`
is stable; any stable sort computes the same list, here insertion sort),
then the greedy filtering loop. -/
def removeOverlappingEntities (entities : List Entity) : List Entity :=
  (List.insertionSort startLE entities).foldl insertEntity []

/-! ## Entity extraction: `extract_entities`

The Flair tagger is an external capability; its labeled spans are an oracle
input.  The method filters excluded classes before and after type mapping,
validates, appends the address matches and removes overlaps. -/

/-- One Flair span: `ent.text`, `ent.get_label('ner').value`,
`ent.start_position`, `ent.end_position`. -/
structure FlairSpan where
  text : String
  tag : String
  start : Nat
  endPos : Nat
deriving DecidableEq, Repr

/-- The excluded tagger classes. -/
def excludedTypes : List String :=
  ["DATE", "TIME", "PERCENT", "MONEY", "QUANTITY", "ORDINAL", "CARDINAL"]

/-- The per-span body of Step 1 of `extract_entities`. -/
def spanToEntity (ent : FlairSpan) : Option Entity :=
  if ent.tag ∈ excludedTypes then none
  else
    let entityType := mapFlairEntityType ent.tag
    if entityType ∈ excludedTypes then none
    else if isValidEntity ent.text entityType then
      some (mkEntity ent.text entityType ent.start ent.endPos ent.tag)
    else none

/-- `extract_entities`, given the tagger spans and the address-regex
matches. -/
def extractEntities (spans : List FlairSpan) (addressMatches : List AddressMatch) :
    List Entity :=
  removeOverlappingEntities
    (spans.filterMap spanToEntity ++ extractAddresses addressMatches)

/-! ## GeoContextDetector: `_detect_geographical_context`

The gazetteer scan and the priority ordering are pure string processing and
are translated directly.  The three postal-code regexes are concrete and
small, so `re.search` is implemented for them by a tiny nondeterministic
matcher over character lists. -/

/-- The `major_locations` gazetteer, in source (insertion) order. -/
def majorLocations : List (String × List String) :=
  [("uk", ["uk", "united kingdom", "britain", "great britain"]),
   ("usa", ["usa", "united states", "america", "us "]),
   ("canada", ["canada"]),
   ("australia", ["australia"]),
   ("france", ["france"]),
   ("germany", ["germany"]),
   ("italy", ["italy"]),
   ("spain", ["spain"]),
   ("japan", ["japan"]),
   ("china", ["china"]),
   ("india", ["india"]),
   ("london", ["london"]),
   ("new york", ["new york", "nyc", "manhattan"]),
   ("paris", ["paris"]),
   ("tokyo", ["tokyo"]),
   ("sydney", ["sydney"]),
   ("toronto", ["toronto"]),
   ("berlin", ["berlin"]),
   ("rome", ["rome"]),
   ("madrid", ["madrid"]),
   ("beijing", ["beijing"]),
   ("mumbai", ["mumbai"]),
   ("los angeles", ["los angeles", "la ", " la,"]),
   ("chicago", ["chicago"]),
   ("boston", ["boston"]),
   ("edinburgh", ["edinburgh"]),
   ("glasgow", ["glasgow"]),
   ("manchester", ["manchester"]),
   ("birmingham", ["birmingham"]),
   ("liverpool", ["liverpool"]),
   ("bristol", ["bristol"]),
   ("leeds", ["leeds"]),
   ("cardiff", ["cardiff"]),
   ("belfast", ["belfast"]),
   ("dublin", ["dublin"])]

/-- A regex fragment: consumes some characters, returning every possible
remaining suffix. -/
def ReM := List Char → List (List Char)

/-- A single character from a class. -/
def pOne (p : Char → Bool) : ReM := fun s =>
  match s with
  | [] => []
  | c :: rest => if p c then [rest] else []

/-- Sequential composition. -/
def pSeq (m1 m2 : ReM) : ReM := fun s => (m1 s).flatMap m2

/-- Exactly `n` repetitions. -/
def pCount (m : ReM) : Nat → ReM
  | 0 => fun s => [s]
  | n + 1 => pSeq m (pCount m n)

/-- Between `lo` and `hi` repetitions (`{lo,hi}`). -/
def pRep (m : ReM) (lo hi : Nat) : ReM := fun s =>
  ((List.range (hi + 1)).filter (fun k => lo ≤ k)).flatMap (fun k => pCount m k s)

/-- Optional fragment (`?`). -/
def pOpt (m : ReM) : ReM := fun s => s :: m s

/-- `p*` for a character class (all prefixes of the maximal run). -/
def pStar (p : Char → Bool) : List Char → List (List Char)
  | [] => [[]]
  | c :: rest => (c :: rest) :: (if p c then pStar p rest else [])

/-- A literal character. -/
def pChar (lit : Char) : ReM := pOne (fun c => c = lit)

/-- Regex classes. -/
def isUpperAZ (c : Char) : Bool := decide ('A' ≤ c) && decide (c ≤ 'Z')

/-- `\w` (ASCII): letters, digits, underscore. -/
def isWordChar (c : Char) : Bool := c.isAlphanum || c = '_'

/-- Does the fragment match a prefix of `suffix` ending at a `\b` boundary,
where `prev` is the character before `suffix`?  All four postal patterns
begin and end with word characters, so the boundaries reduce to checking
the characters adjacent to the matched region. -/
def reMatchHere (m : ReM) (prev : Option Char) (suffix : List Char) : Bool :=
  (match prev with
   | none => true
   | some c => !isWordChar c) &&
  (m suffix).any (fun rest =>
    match rest with
    | [] => true
    | c :: _ => !isWordChar c)

/-- `re.search` (truthiness only): try every start position. -/
def reSearchAux (m : ReM) (prev : Option Char) : List Char → Bool
  | [] => false
  | c :: rest => reMatchHere m prev (c :: rest) || reSearchAux m (some c) rest

/-- `bool(re.search(pattern, text))` for a fragment beginning and ending in
word characters and carrying `\b` at both ends. -/
def reSearch (m : ReM) (text : String) : Bool :=
  reSearchAux m none text.data

/-- `[A-Z]{1,2}\d{1,2}[A-Z]?\s*\d[A-Z]{2}` (first UK postcode pattern). -/
def ukPostcode1 : ReM :=
  pSeq (pRep (pOne isUpperAZ) 1 2)
    (pSeq (pRep (pOne Char.isDigit) 1 2)
      (pSeq (pOpt (pOne isUpperAZ))
        (pSeq (pStar Char.isWhitespace)
          (pSeq (pOne Char.isDigit) (pCount (pOne isUpperAZ) 2)))))

/-- `[A-Z]{2}\d{1,2}\s*\d[A-Z]{2}` (second UK postcode pattern). -/
def ukPostcode2 : ReM :=
  pSeq (pCount (pOne isUpperAZ) 2)
    (pSeq (pRep (pOne Char.isDigit) 1 2)
      (pSeq (pStar Char.isWhitespace)
        (pSeq (pOne Char.isDigit) (pCount (pOne isUpperAZ) 2))))

/-- `\d{5}(-\d{4})?` (US ZIP codes). -/
def usZip : ReM :=
  pSeq (pCount (pOne Char.isDigit) 5)
    (pOpt (pSeq (pChar '-') (pCount (pOne Char.isDigit) 4)))

/-- `[A-Z]\d[A-Z]\s*\d[A-Z]\d` (Canadian postal codes). -/
def caPostal : ReM :=
  pSeq (pOne isUpperAZ)
    (pSeq (pOne Char.isDigit)
      (pSeq (pOne isUpperAZ)
        (pSeq (pStar Char.isWhitespace)
          (pSeq (pOne Char.isDigit)
            (pSeq (pOne isUpperAZ) (pOne Char.isDigit))))))

/-- The `postal_patterns` table, in source order. -/
def postalPatterns : List (String × List ReM) :=
  [("uk", [ukPostcode1, ukPostcode2]),
   ("usa", [usZip]),
   ("canada", [caPostal])]

/-- Phase 1: explicit gazetteer mentions in the lowercased text.  The inner
loop appends the key on the first matching alias and breaks. -/
def contextCluesPhase1 (textLower : List Char) : List String :=
  majorLocations.foldl
    (fun acc kv =>
      if kv.2.any (fun pat => strInL pat.data textLower) then acc ++ [kv.1] else acc)
    []

/-- Phase 2: place-typed entities contributing gazetteer keys
(`entity_lower in patterns or any(p in entity_lower for p in patterns)`),
appended only if not already present. -/
def contextCluesPhase2 (entities : List Entity) (acc0 : List String) : List String :=
  entities.foldl
    (fun acc e =>
      if e.type ∈ (["LOCATION", "GPE", "FACILITY"] : List String) then
        let entityLower := pyLowerL e.text.data
        majorLocations.foldl
          (fun acc2 kv =>
            if kv.2.contains (entityLower.asString)
                || kv.2.any (fun pat => strInL pat.data entityLower) then
              if kv.1 ∈ acc2 then acc2 else acc2 ++ [kv.1]
            else acc2)
          acc
      else acc)
    acc0

/-- Phase 3: postal-code regexes over the raw text; the first matching
pattern of a country contributes its key if new. -/
def contextCluesPhase3 (text : String) (acc0 : List String) : List String :=
  postalPatterns.foldl
    (fun acc kv =>
      if kv.2.any (fun m => reSearch m text) then
        if kv.1 ∈ acc then acc else acc ++ [kv.1]
      else acc)
    acc0

/-- The `context_clues` list just before prioritization. -/
def contextClues (text : String) (entities : List Entity) : List String :=
  contextCluesPhase3 text
    (contextCluesPhase2 entities (contextCluesPhase1 (pyLowerL text.data)))

/-- The fixed `priority_order` list. -/
def priorityOrder : List String :=
  ["london", "new york", "paris", "tokyo", "sydney", "uk", "usa", "canada",
   "australia", "france", "germany"]

/-- The prioritization step: priority keys first, remaining detected keys in
discovery order, truncated to 3. -/
def prioritizeClues (clues : List String) : List String :=
  let prioritized :=
    priorityOrder.foldl
      (fun acc p => if p ∈ clues then acc ++ [p] else acc) []
  let prioritized :=
    clues.foldl
      (fun acc c => if c ∈ acc then acc else acc ++ [c]) prioritized
  prioritized.take 3

/-- `_detect_geographical_context`. -/
def detectGeographicalContext (text : String) (entities : List Entity) : List String :=
  prioritizeClues (contextClues text entities)

/-! ## External-call instrumentation

Every external call and every executed `time.sleep` is recorded as an
event; the outcome annotation distinguishes calls that raised, completed
without a usable result, or produced a result. -/

inductive CallOutcome where
  | raised
  | noResult
  | gotResult
deriving DecidableEq, Repr

inductive Event where
  | call (o : CallOutcome)
  | sleep
deriving DecidableEq, Repr

/-! ## Geocoding oracles

A geopy `geocode` call either raises one of the caught exceptions, returns
`None`, or returns a location.  A Nominatim HTTP call either raises, returns
a non-200 status, returns an empty result list, or returns a first result.
`lat`/`lon` arrive as JSON strings; the `float()` conversion performed by
Python is supplied alongside the raw strings. -/

inductive GeopyOut where
  | raised
  | noResult
  | found (lat lon : Rat) (address : String)
deriving DecidableEq, Repr

structure OsmLoc where
  latRaw : String
  lonRaw : String
  lat : Rat
  lon : Rat
  displayName : String
deriving DecidableEq, Repr

inductive OsmOut where
  | raised
  | notOk
  | empty
  | found (loc : OsmLoc)
deriving DecidableEq, Repr

/-- The environment of a geocoding run: availability of geopy and the
response of each service to each query string. -/
structure GeoOracle where
  geopyAvailable : Bool
  contextualGeopy : String → GeopyOut
  nominatim : GeopyOut
  arcgis : GeopyOut
  contextualOsm : String → OsmOut
  aggressiveOsm : String → OsmOut

/-! ## `_try_contextual_geocoding` -/

/-- The `context_mapping` table. -/
def contextMapping : List (String × List String) :=
  [("uk", ["UK", "United Kingdom", "England", "Britain"]),
   ("usa", ["USA", "United States", "US"]),
   ("canada", ["Canada"]),
   ("australia", ["Australia"]),
   ("france", ["France"]),
   ("germany", ["Germany"]),
   ("london", ["London, UK", "London, England"]),
   ("new york", ["New York, USA", "New York, NY"]),
   ("paris", ["Paris, France"]),
   ("tokyo", ["Tokyo, Japan"]),
   ("sydney", ["Sydney, Australia"])]

/-- The context-aware search terms before deduplication. -/
def searchVariationsRaw (contextClues : List String) (text : String) : List String :=
  text :: contextClues.flatMap (fun context =>
    let contextVariants :=
      match contextMapping.find? (fun p => p.1 = context) with
      | some p => p.2
      | none => [context]
    contextVariants.map (fun variant => text ++ ", " ++ variant))

/-- `search_variations` after `list(dict.fromkeys(...))`. -/
def searchVariations (contextClues : List String) (text : String) : List String :=
  pyDedup (searchVariationsRaw contextClues text)

/-- The geopy loop of `_try_contextual_geocoding` over the (up to 5) search
terms.  A found location sets all five geocoding fields and returns before
the rate-limit sleep; an empty result sleeps and continues; a caught
geocoder exception continues without sleeping. -/
def ctxGeopyLoop (resp : String → GeopyOut) (e : Entity) :
    List String → Option Entity × List Event
  | [] => (none, [])
  | term :: rest =>
    match resp term with
    | .found lat lon addr =>
      (some { e with latitude := some lat, longitude := some lon,
                     location_name := some addr,
                     geocoding_source := some "geopy_contextual",
                     search_term_used := some term },
       [.call .gotResult])
    | .noResult =>
      ((ctxGeopyLoop resp e rest).1,
       .call .noResult :: .sleep :: (ctxGeopyLoop resp e rest).2)
    | .raised =>
      ((ctxGeopyLoop resp e rest).1, .call .raised :: (ctxGeopyLoop resp e rest).2)

/-- The OpenStreetMap loop of `_try_contextual_geocoding` over the (up to
3) search terms.  A found result sets all five fields and returns before
the sleep; a non-200 status or empty payload sleeps and continues; an
exception continues without sleeping. -/
def ctxOsmLoop (resp : String → OsmOut) (e : Entity) :
    List String → Option Entity × List Event
  | [] => (none, [])
  | term :: rest =>
    match resp term with
    | .found loc =>
      (some { e with latitude := some loc.lat, longitude := some loc.lon,
                     location_name := some loc.displayName,
                     geocoding_source := some "openstreetmap_contextual",
                     search_term_used := some term },
       [.call .gotResult])
    | .raised =>
      ((ctxOsmLoop resp e rest).1, .call .raised :: (ctxOsmLoop resp e rest).2)
    | .notOk =>
      ((ctxOsmLoop resp e rest).1,
       .call .noResult :: .sleep :: (ctxOsmLoop resp e rest).2)
    | .empty =>
      ((ctxOsmLoop resp e rest).1,
       .call .noResult :: .sleep :: (ctxOsmLoop resp e rest).2)

/-- The geopy half of `_try_contextual_geocoding`: skipped entirely when
the geopy import fails. -/
def ctxGeopyPart (orc : GeoOracle) (e : Entity) (variations : List String) :
    Option Entity × List Event :=
  if orc.geopyAvailable then ctxGeopyLoop orc.contextualGeopy e (variations.take 5)
  else (none, [])

/-- `_try_contextual_geocoding`. -/
def tryContextualGeocoding (clues : List String) (orc : GeoOracle) (e : Entity) :
    Bool × Entity × List Event :=
  if clues.isEmpty then (false, e, [])
  else
    let variations := searchVariations clues e.text
    let gp := ctxGeopyPart orc e variations
    match gp.1 with
    | some eg => (true, eg, gp.2)
    | none =>
      let osm := ctxOsmLoop orc.contextualOsm e (variations.take 3)
      match osm.1 with
      | some eo => (true, eo, gp.2 ++ osm.2)
      | none => (false, e, gp.2 ++ osm.2)

/-! ## `_try_python_geocoding`

The method does not import `time`, so its `time.sleep(0.3)` line raises
`NameError`, which the broad `except Exception` clause turns into
`continue`: no sleep is ever executed here.  A found location sets
latitude, longitude, `location_name` and `geocoding_source` — but not
`search_term_used`. -/

/-- The loop over `[('nominatim', ...), ('arcgis', ...)]`. -/
def pyGeoLoop (e : Entity) : List (String × GeopyOut) → Option Entity × List Event
  | [] => (none, [])
  | (name, out) :: rest =>
    match out with
    | .found lat lon addr =>
      (some { e with latitude := some lat, longitude := some lon,
                     location_name := some addr,
                     geocoding_source := some ("geopy_" ++ name) },
       [.call .gotResult])
    | .noResult =>
      ((pyGeoLoop e rest).1, .call .noResult :: (pyGeoLoop e rest).2)
    | .raised =>
      ((pyGeoLoop e rest).1, .call .raised :: (pyGeoLoop e rest).2)

/-- `_try_python_geocoding`. -/
def tryPythonGeocoding (orc : GeoOracle) (e : Entity) : Bool × Entity × List Event :=
  if orc.geopyAvailable then
    let res := pyGeoLoop e [("nominatim", orc.nominatim), ("arcgis", orc.arcgis)]
    match res.1 with
    | some eg => (true, eg, res.2)
    | none => (false, e, res.2)
  else (false, e, [])

/-! ## `_try_openstreetmap`

Neither `requests` nor `time` is bound in this method's scope (the imports
in `get_coordinates` are local to that function), so the very first
statement `requests.get(...)` raises `NameError`, the broad `except`
catches it and the method always returns `False` without performing any
external call. -/

def tryOpenstreetmap (e : Entity) : Bool × Entity × List Event :=
  (false, e, [])

/-! ## `_try_aggressive_geocoding` -/

/-- The fixed list of aggressive search variations. -/
def aggressiveVariations (text : String) : List String :=
  [text,
   text ++ ", UK",
   text ++ ", England",
   text ++ ", Scotland",
   text ++ ", Wales",
   text ++ " city",
   text ++ " town"]

/-- The loop of `_try_aggressive_geocoding`: a found result sets all five
fields and returns before the sleep; non-200 or empty sleeps and
continues; an exception continues without sleeping. -/
def aggressiveLoop (resp : String → OsmOut) (e : Entity) :
    List String → Option Entity × List Event
  | [] => (none, [])
  | term :: rest =>
    match resp term with
    | .found loc =>
      (some { e with latitude := some loc.lat, longitude := some loc.lon,
                     location_name := some loc.displayName,
                     geocoding_source := some "openstreetmap_aggressive",
                     search_term_used := some term },
       [.call .gotResult])
    | .raised =>
      ((aggressiveLoop resp e rest).1, .call .raised :: (aggressiveLoop resp e rest).2)
    | .notOk =>
      ((aggressiveLoop resp e rest).1,
       .call .noResult :: .sleep :: (aggressiveLoop resp e rest).2)
    | .empty =>
      ((aggressiveLoop resp e rest).1,
       .call .noResult :: .sleep :: (aggressiveLoop resp e rest).2)

/-- `_try_aggressive_geocoding`. -/
def tryAggressiveGeocoding (orc : GeoOracle) (e : Entity) : Bool × Entity × List Event :=
  let res := aggressiveLoop orc.aggressiveOsm e (aggressiveVariations e.text)
  match res.1 with
  | some eg => (true, eg, res.2)
  | none => (false, e, res.2)

/-! ## `get_coordinates` -/

/-- The place types eligible for geocoding. -/
def placeTypes : List String :=
  ["LOCATION", "GPE", "FACILITY", "ORGANIZATION", "ADDRESS"]

/-- The loop body of `get_coordinates` for one entity: skip non-place
types; skip entities that already carry a latitude; otherwise try the four
strategies in order, stopping at the first success. -/
def processPlaceEntity (clues : List String) (orc : GeoOracle) (e : Entity) :
    Entity × List Event :=
  if e.type ∈ placeTypes then
    if (e.latitude).isSome then (e, [])
    else
      let (b1, e1, t1) := tryContextualGeocoding clues orc e
      if b1 then (e1, t1)
      else
        let (b2, e2, t2) := tryPythonGeocoding orc e1
        if b2 then (e2, t1 ++ t2)
        else
          let (b3, e3, t3) := tryOpenstreetmap e2
          if b3 then (e3, t1 ++ t2 ++ t3)
          else
            let (_, e4, t4) := tryAggressiveGeocoding orc e3
            (e4, t1 ++ t2 ++ t3 ++ t4)
  else (e, [])

/-- `get_coordinates`: context detection over the processed text (from the
session state) and the entity list, then the per-entity strategy chain. -/
def getCoordinates (processedText : String) (orc : GeoOracle) (entities : List Entity) :
    List Entity :=
  let clues := detectGeographicalContext processedText entities
  entities.map (fun e => (processPlaceEntity clues orc e).1)

/-! ## KnowledgeLinker: `link_to_wikidata`, `link_to_wikipedia`,
`link_to_britannica`, `link_to_openstreetmap`

Each method loops over the entity list applying a per-entity body;
the bodies are embedded here, parameterized by the service response for
that entity. -/

/-- One Wikidata `wbsearchentities` result: an id and an optional
description (`result.get('description', '')`). -/
structure WdItem where
  id : String
  description : Option String
deriving DecidableEq, Repr

inductive WdResp where
  | raised
  | notOk
  | ok (search : List WdItem)
deriving DecidableEq, Repr

/-- The outcome annotation of the Wikidata call. -/
def wdOutcome : WdResp → CallOutcome
  | .raised => .raised
  | .notOk => .noResult
  | .ok [] => .noResult
  | .ok (_ :: _) => .gotResult

/-- The loop body of `link_to_wikidata` for one entity: no skip guard; a
non-empty search result sets `wikidata_url` and `wikidata_description`;
the rate-limit sleep runs inside the `try` block after the `if`, so it is
skipped exactly when the call raised. -/
def linkToWikidataEntity (r : WdResp) (e : Entity) : Entity × List Event :=
  let e' :=
    match r with
    | .ok (item :: _) =>
      { e with wikidata_url := some ("http://www.wikidata.org/entity/" ++ item.id),
               wikidata_description := some (item.description.getD "") }
    | _ => e
  (e', .call (wdOutcome r) :: (match r with | .raised => [] | _ => [.sleep]))

/-- Hexadecimal digit (uppercase), for percent-encoding. -/
def hexDigit (n : Nat) : Char :=
  if n < 10 then Char.ofNat ('0'.toNat + n) else Char.ofNat ('A'.toNat + (n - 10))

/-- Bytes left intact by `urllib.parse.quote` with the default
`safe='/'`: ASCII letters, digits, `_.-~` and `/`. -/
def isUrlSafe (b : UInt8) : Bool :=
  (65 ≤ b && b ≤ 90) || (97 ≤ b && b ≤ 122) || (48 ≤ b && b ≤ 57) ||
  b == 95 || b == 46 || b == 45 || b == 126 || b == 47

/-- `urllib.parse.quote`: percent-encode the UTF-8 bytes. -/
def urlQuote (s : String) : String :=
  (s.toUTF8.toList.foldr
    (fun b acc =>
      if isUrlSafe b then Char.ofNat b.toNat :: acc
      else '%' :: hexDigit (b.toNat / 16) :: hexDigit (b.toNat % 16) :: acc)
    []).asString

/-- Split a character list at the first `'>'`, returning the (non-`'>'`)
characters before it and the suffix after it. -/
def splitUntilGt : List Char → Option (List Char × List Char)
  | [] => none
  | c :: rest =>
    if c = '>' then some ([], rest)
    else (splitUntilGt rest).map (fun p => (c :: p.1, p.2))

theorem splitUntilGt_length :
    ∀ (l inner rest : List Char), splitUntilGt l = some (inner, rest) →
      rest.length < l.length := by
  intro l
  induction l with
  | nil => intro inner rest h; simp [splitUntilGt] at h
  | cons c cs ih =>
    intro inner rest h
    by_cases hc : c = '>'
    · simp [splitUntilGt, hc] at h
      simp [← h.2]
    · cases hsp : splitUntilGt cs with
      | none => simp [splitUntilGt, hc, hsp] at h
      | some p =>
        simp [splitUntilGt, hc, hsp] at h
        have := ih p.1 p.2 (by rw [hsp])
        rw [← h.2]
        simp
        omega

/-- `re.sub(r'<[^>]+>', '', s)`: remove every maximal `<...>` region with a
non-empty interior; a `<` with no closing `>` (or immediately followed by
`>`) is kept and scanning resumes at the next character. -/
def stripTagsL : List Char → List Char
  | [] => []
  | c :: r =>
    if c = '<' then
      match hs : splitUntilGt r with
      | some (tagInner, tagRest) =>
        if tagInner.isEmpty then c :: stripTagsL r
        else stripTagsL tagRest
      | none => c :: stripTagsL r
    else c :: stripTagsL r
termination_by l => l.length
decreasing_by
  all_goals simp_wf
  all_goals have h9 := splitUntilGt_length rest tagInner tagRest hs
  all_goals omega

/-- Tag stripping on strings. -/
def stripTags (s : String) : String := (stripTagsL s.data).asString

/-- One Wikipedia search hit: a title and an optional snippet. -/
structure WpItem where
  title : String
  snippet : Option String
deriving DecidableEq, Repr

inductive WpResp where
  | raised
  | notOk
  | ok (search : List WpItem)
deriving DecidableEq, Repr

/-- The Wikipedia description: the tag-stripped snippet truncated to 200
characters with an ellipsis. -/
def wikipediaDescription (rawSnippet : String) : String :=
  let snippet := stripTags rawSnippet
  if snippet.length > 200 then ((snippet.data.take 200).asString) ++ "..."
  else snippet

/-- The loop body of `link_to_wikipedia` for one entity: entities already
carrying a (truthy) `wikidata_url` are skipped; otherwise the first search
result sets `wikipedia_url`/`wikipedia_title` and, when a truthy snippet is
present, `wikipedia_description`; the sleep runs unless the call raised. -/
def linkToWikipediaEntity (r : WpResp) (e : Entity) : Entity × List Event :=
  if pyTruthy e.wikidata_url then (e, [])
  else
    match r with
    | .raised => (e, [.call .raised])
    | .notOk => (e, [.call .noResult, .sleep])
    | .ok [] => (e, [.call .noResult, .sleep])
    | .ok (item :: _) =>
      let e' :=
        { e with wikipedia_url :=
                   some ("https://en.wikipedia.org/wiki/"
                         ++ urlQuote (pyReplaceSpace item.title)),
                 wikipedia_title := some item.title }
      let e'' :=
        if pyTruthy item.snippet then
          { e' with wikipedia_description :=
                      some (wikipediaDescription (item.snippet.getD "")) }
        else e'
      (e'', [.call .gotResult, .sleep])

/-- One Britannica match of the link regex: `(url_path, link_text)`. -/
structure BrMatch where
  urlPath : String
  linkText : String
deriving DecidableEq, Repr

inductive BrResp where
  | raised
  | notOk
  | ok (ms : List BrMatch)
deriving DecidableEq, Repr

/-- The case-insensitive containment test of `link_to_britannica`:
`entity['text'].lower() in link_text.lower() or link_text.lower() in
entity['text'].lower()`. -/
def britannicaMatches (entityText linkText : String) : Bool :=
  strInL (pyLowerL entityText.data) (pyLowerL linkText.data)
    || strInL (pyLowerL linkText.data) (pyLowerL entityText.data)

/-- The loop body of `link_to_britannica` for one entity: entities already
carrying a truthy `wikidata_url` or `wikipedia_url` are skipped; otherwise
the first regex match whose text overlaps the entity text sets
`britannica_url` and `britannica_title`; the sleep runs unless the call
raised. -/
def linkToBritannicaEntity (r : BrResp) (e : Entity) : Entity × List Event :=
  if pyTruthy e.wikidata_url || pyTruthy e.wikipedia_url then (e, [])
  else
    match r with
    | .raised => (e, [.call .raised])
    | .notOk => (e, [.call .noResult, .sleep])
    | .ok ms =>
      match ms.find? (fun m => britannicaMatches e.text m.linkText) with
      | some m =>
        ({ e with britannica_url := some ("https://www.britannica.com" ++ m.urlPath),
                  britannica_title := some (pyStrip m.linkText) },
         [.call .gotResult, .sleep])
      | none => (e, [.call .noResult, .sleep])

/-- The linking chain applied to one entity in pipeline order: Wikidata,
then Wikipedia, then Britannica. -/
def linkChainEntity (rwd : WdResp) (rwp : WpResp) (rbr : BrResp) (e : Entity) : Entity :=
  (linkToBritannicaEntity rbr
    (linkToWikipediaEntity rwp
      (linkToWikidataEntity rwd e).1).1).1

/-- The loop body of `link_to_openstreetmap` for one entity: only
`ADDRESS`-typed entities are processed; a found result sets the
OpenStreetMap link/display name and latitude, longitude and
`location_name` (but neither `geocoding_source` nor `search_term_used`);
the sleep runs inside the `try` after the `if`, so it is skipped exactly
when the call raised. -/
def linkToOpenstreetmapEntity (r : OsmOut) (e : Entity) : Entity × List Event :=
  if e.type = "ADDRESS" then
    match r with
    | .raised => (e, [.call .raised])
    | .notOk => (e, [.call .noResult, .sleep])
    | .empty => (e, [.call .noResult, .sleep])
    | .found loc =>
      ({ e with openstreetmap_url :=
                  some ("https://www.openstreetmap.org/?mlat=" ++ loc.latRaw
                        ++ "&mlon=" ++ loc.lonRaw ++ "&zoom=18"),
                openstreetmap_display_name := some loc.displayName,
                latitude := some loc.lat,
                longitude := some loc.lon,
                location_name := some loc.displayName },
       [.call .gotResult, .sleep])
  else (e, [])

/-! ## Auxiliary definitions used by the theorems -/

/-- Two entities do not overlap (the negation of the source's overlap
test). -/
def NonOverlap (a b : Entity) : Prop :=
  ¬(a.start < b.endPos ∧ b.start < a.endPos)

/-- How many of the three linking sources produced a (truthy) link. -/
def linkCount (e : Entity) : Nat :=
  (if pyTruthy e.wikidata_url then 1 else 0)
    + (if pyTruthy e.wikipedia_url then 1 else 0)
    + (if pyTruthy e.britannica_url then 1 else 0)

/-- Every `call` event is eventually followed by a `sleep` event. -/
def everyCallSlept : List Event → Bool
  | [] => true
  | .call _ :: rest => rest.contains .sleep && everyCallSlept rest
  | .sleep :: rest => everyCallSlept rest

/-- The trace is a sequence of blocks `[call o]` (for outcomes `o` with
`f o = false`) and `[call o, sleep]` (for outcomes with `f o = true`): a
delay immediately follows exactly the calls selected by `f`. -/
def callsProperlySlept (f : CallOutcome → Bool) : List Event → Bool
  | [] => true
  | .sleep :: _ => false
  | [.call o] => !(f o)
  | .call o :: .sleep :: rest => f o && callsProperlySlept f rest
  | .call o :: .call o2 :: rest => !(f o) && callsProperlySlept f (.call o2 :: rest)

/-- An all-failure oracle, used to instantiate witnesses. -/
def oracle0 : GeoOracle :=
  { geopyAvailable := false,
    contextualGeopy := fun _ => .raised,
    nominatim := .raised,
    arcgis := .raised,
    contextualOsm := fun _ => .raised,
    aggressiveOsm := fun _ => .raised }

/-- An oracle whose nominatim geocoder answers every query. -/
def oracleNominatimHit : GeoOracle :=
  { geopyAvailable := true,
    contextualGeopy := fun _ => .raised,
    nominatim := .found 51 0 "London, UK",
    arcgis := .raised,
    contextualOsm := fun _ => .raised,
    aggressiveOsm := fun _ => .raised }

/-! ## Claim theorems -/

/-- Claim C8: the type mapper is total, maps `B-PER` to `PERSON` and `GPE`
to `LOCATION`, and maps every label outside the fixed lookup table to
itself unchanged. -/
theorem C8_type_mapper_table :
    mapFlairEntityType "B-PER" = "PERSON" ∧
    mapFlairEntityType "GPE" = "LOCATION" ∧
    ∀ lab : String, lab ∉ flairMapping.map Prod.fst → mapFlairEntityType lab = lab := by
  refine ⟨by decide, by decide, ?_⟩
  intro lab h
  have hf : flairMapping.find? (fun p => p.1 = lab) = none := by
    apply List.find?_eq_none.mpr
    intro x hx
    simp only [decide_eq_true_eq]
    intro hx1
    exact h (hx1 ▸ List.mem_map_of_mem Prod.fst hx)
  simp [mapFlairEntityType, hf]

/-- Witness for C8 at the unknown label `UNKNOWN_XYZ`. -/
theorem C8_type_mapper_table_witness :
    ("UNKNOWN_XYZ" ∉ flairMapping.map Prod.fst) ∧
    mapFlairEntityType "UNKNOWN_XYZ" = "UNKNOWN_XYZ" :=
  ⟨by decide, C8_type_mapper_table.2.2 "UNKNOWN_XYZ" (by decide)⟩

/-- Claim C10: the validator accepts every `PERSON` span whose stripped
text is longer than one character and whose tokens are all non-alphabetic
(`word.isalpha()` false), because the capitalization check quantifies only
over alphabetic tokens and is then vacuous. -/
theorem C10_person_validator_vacuous (t : String)
    (hlen : 1 < (pyStrip t).length)
    (halpha : ∀ w ∈ pySplit t, pyIsAlpha w = false) :
    isValidEntity t "PERSON" = true := by
  unfold isValidEntity
  have h1 : ¬((pyStrip t).length ≤ 1) := by omega
  simp only [h1, if_false, if_true, reduceIte]
  rw [List.all_eq_true]
  intro w hw
  simp [halpha w hw]

/-- Witness for C10 at a span whose tokens contain digits. -/
theorem C10_person_validator_vacuous_witness :
    (1 < (pyStrip "J0hn D0e").length ∧
      ∀ w ∈ pySplit "J0hn D0e", pyIsAlpha w = false) ∧
    isValidEntity "J0hn D0e" "PERSON" = true :=
  ⟨⟨by decide, by decide⟩,
   C10_person_validator_vacuous "J0hn D0e" (by decide) (by decide)⟩

/-- Claim C7: the loop body of `get_coordinates` leaves an entity that
already carries a latitude completely unchanged and performs no external
call (and no sleep), so a second run over an already-geocoded entity is a
no-op. -/
theorem C7_geocoding_idempotent (clues : List String) (orc : GeoOracle) (e : Entity)
    (h : (e.latitude).isSome = true) :
    processPlaceEntity clues orc e = (e, []) := by
  unfold processPlaceEntity
  by_cases ht : e.type ∈ placeTypes
  · simp [ht, h]
  · simp [ht]

theorem nonOverlap_symm : Symmetric NonOverlap := by
  intro a b h hab
  exact h ⟨hab.2, hab.1⟩

theorem overlapsB_eq_true {x y : Entity} :
    overlapsB x y = true ↔ x.start < y.endPos ∧ y.start < x.endPos := by
  simp [overlapsB]

theorem mem_insertEntity {filtered : List Entity} {e x : Entity}
    (h : x ∈ insertEntity filtered e) : x ∈ filtered ∨ x = e := by
  unfold insertEntity at h
  cases hf : filtered.find? (fun existing => overlapsB e existing) with
  | none =>
    rw [hf] at h
    rcases List.mem_append.mp h with h1 | h1
    · exact Or.inl h1
    · exact Or.inr (List.mem_singleton.mp h1)
  | some ex =>
    rw [hf] at h
    dsimp only at h
    by_cases hl : ex.text.length < e.text.length
    · rw [if_pos hl] at h
      rcases List.mem_append.mp h with h1 | h1
      · exact Or.inl (List.mem_of_mem_erase h1)
      · exact Or.inr (List.mem_singleton.mp h1)
    · rw [if_neg hl] at h
      exact Or.inl h

theorem pairwise_rel_self_of_two_le_count {R : Entity → Entity → Prop} :
    ∀ (l : List Entity) (a : Entity), l.Pairwise R → 2 ≤ l.count a → R a a := by
  intro l
  induction l with
  | nil => intro a _ hc; simp at hc
  | cons b t ih =>
    intro a hp hc
    rcases List.pairwise_cons.mp hp with ⟨hb, ht⟩
    by_cases hab : b = a
    · subst hab
      have : 1 ≤ t.count b := by
        rw [List.count_cons_self] at hc
        omega
      exact hb b (List.count_pos_iff.mp (by omega))
    · have : t.count a = (b :: t).count a := by
        rw [List.count_cons_of_ne (fun hne => hab hne.symm)]
      exact ih a ht (by omega)

theorem unique_overlapper {acc : List Entity} {e x y : Entity}
    (hp : acc.Pairwise NonOverlap)
    (hstart : ∀ z ∈ acc, z.start ≤ e.start)
    (hx : x ∈ acc) (hy : y ∈ acc)
    (hox : overlapsB e x = true) (hoy : overlapsB e y = true) : x = y := by
  by_contra hne
  have hno : NonOverlap x y := hp.forall nonOverlap_symm hx hy hne
  rcases overlapsB_eq_true.mp hox with ⟨hox1, hox2⟩
  rcases overlapsB_eq_true.mp hoy with ⟨hoy1, hoy2⟩
  have hxs := hstart x hx
  have hys := hstart y hy
  rcases not_and_or.mp hno with h1 | h1 <;> omega

theorem insertEntity_pairwise {acc : List Entity} {e : Entity}
    (hp : acc.Pairwise NonOverlap)
    (hstart : ∀ z ∈ acc, z.start ≤ e.start) :
    (insertEntity acc e).Pairwise NonOverlap := by
  unfold insertEntity
  cases hf : acc.find? (fun existing => overlapsB e existing) with
  | none =>
    rw [List.pairwise_append]
    refine ⟨hp, List.pairwise_singleton _ _, ?_⟩
    intro x hx y hy
    rw [List.mem_singleton] at hy
    subst hy
    have := List.find?_eq_none.mp hf x hx
    intro hcon
    exact this (overlapsB_eq_true.mpr ⟨hcon.2, hcon.1⟩)
  | some ex =>
    have hoex : overlapsB e ex = true := List.find?_some hf
    have hmem : ex ∈ acc := List.mem_of_find?_eq_some hf
    dsimp only
    by_cases hl : ex.text.length < e.text.length
    · rw [if_pos hl, List.pairwise_append]
      refine ⟨hp.sublist (acc.erase_sublist ex), List.pairwise_singleton _ _, ?_⟩
      intro x hx y hy
      rw [List.mem_singleton] at hy
      subst hy
      intro hcon
      have hxo : overlapsB y x = true := overlapsB_eq_true.mpr ⟨hcon.2, hcon.1⟩
      have hxa : x ∈ acc := List.mem_of_mem_erase hx
      have hxe : x = ex := unique_overlapper hp hstart hxa hmem hxo hoex
      subst hxe
      have hcnt : 1 ≤ (acc.erase x).count x := List.count_pos_iff.mpr hx
      rw [List.count_erase_self] at hcnt
      have hself : NonOverlap x x :=
        pairwise_rel_self_of_two_le_count acc x hp (by omega)
      have hdeg : ¬(x.start < x.endPos) := fun hd => hself ⟨hd, hd⟩
      rcases overlapsB_eq_true.mp hxo with ⟨h1, h2⟩
      have := hstart x hxa
      omega
    · rw [if_neg hl]
      exact hp

theorem foldl_insert_pairwise :
    ∀ (s acc : List Entity), s.Pairwise startLE → acc.Pairwise NonOverlap →
      (∀ x ∈ acc, ∀ y ∈ s, x.start ≤ y.start) →
      (s.foldl insertEntity acc).Pairwise NonOverlap := by
  intro s
  induction s with
  | nil => intro acc _ hacc _; exact hacc
  | cons e s' ih =>
    intro acc hs hacc hstart
    rcases List.pairwise_cons.mp hs with ⟨he, hs'⟩
    rw [List.foldl_cons]
    apply ih
    · exact hs'
    · exact insertEntity_pairwise hacc
        (fun z hz => hstart z hz e (List.mem_cons_self e s'))
    · intro x hx y hy
      rcases mem_insertEntity hx with h1 | h1
      · exact hstart x h1 y (List.mem_cons_of_mem e hy)
      · subst h1; exact he y hy

/-- Claim C1: the output of `_remove_overlapping_entities` is pairwise
non-overlapping: no two output entities `a`, `b` satisfy
`a.start < b.end` and `b.start < a.end`. -/
theorem C1_overlap_invariant (entities : List Entity) :
    (removeOverlappingEntities entities).Pairwise NonOverlap := by
  unfold removeOverlappingEntities
  apply foldl_insert_pairwise
  · exact List.sorted_insertionSort startLE entities
  · exact List.Pairwise.nil
  · intro x hx; simp at hx

theorem insertionSort_pair (a b : Entity) :
    List.insertionSort startLE [a, b] =
      if a.start ≤ b.start then [a, b] else [b, a] := by
  show List.orderedInsert startLE a (List.orderedInsert startLE b []) = _
  rw [List.orderedInsert, List.orderedInsert]
  split
  · rw [if_pos (by assumption)]
  · rw [if_neg (by assumption), List.orderedInsert]

theorem foldl_insert_pair (x y : Entity) (h : overlapsB y x = true) :
    List.foldl insertEntity [] [x, y] =
      if x.text.length < y.text.length then [y] else [x] := by
  have h1 : insertEntity [] x = [x] := rfl
  have h2 : insertEntity [x] y =
      if x.text.length < y.text.length then [y] else [x] := by
    unfold insertEntity
    rw [List.find?_cons_of_pos _ h]
    dsimp only
    split
    · rw [List.erase_cons_head, List.nil_append]
    · rfl
  rw [List.foldl_cons, List.foldl_cons, List.foldl_nil, h1, h2]

/-- Claim C5: on an input of exactly two overlapping candidates the
resolver keeps the one with strictly longer text; on equal text lengths it
keeps the incumbent, i.e. the candidate processed earlier in
start-then-discovery order. -/
theorem C5_longest_wins (a b : Entity)
    (hov : a.start < b.endPos ∧ b.start < a.endPos) :
    (a.text.length ≠ b.text.length →
      removeOverlappingEntities [a, b] =
        [if a.text.length < b.text.length then b else a]) ∧
    (a.text.length = b.text.length →
      removeOverlappingEntities [a, b] = [if a.start ≤ b.start then a else b]) := by
  have hba : overlapsB b a = true := overlapsB_eq_true.mpr ⟨hov.2, hov.1⟩
  have hab : overlapsB a b = true := overlapsB_eq_true.mpr ⟨hov.1, hov.2⟩
  constructor
  · intro hne
    unfold removeOverlappingEntities
    rw [insertionSort_pair]
    by_cases hle : a.start ≤ b.start
    · rw [if_pos hle, foldl_insert_pair a b hba]
      by_cases hl : a.text.length < b.text.length <;> simp [hl]
    · rw [if_neg hle, foldl_insert_pair b a hab]
      by_cases hl : a.text.length < b.text.length
      · have hnl : ¬(b.text.length < a.text.length) := by omega
        simp [hl, hnl]
      · have hgl : b.text.length < a.text.length := by omega
        simp [hl, hgl]
  · intro heq
    unfold removeOverlappingEntities
    rw [insertionSort_pair]
    by_cases hle : a.start ≤ b.start
    · rw [if_pos hle, foldl_insert_pair a b hba]
      have hnl : ¬(a.text.length < b.text.length) := by omega
      simp [hle, hnl]
    · rw [if_neg hle, foldl_insert_pair b a hab]
      have hnl : ¬(b.text.length < a.text.length) := by omega
      simp [hle, hnl]

/-- Witness for C5 at two concrete overlapping entities of different
lengths: the longer one survives. -/
theorem C5_longest_wins_witness :
    ((mkEntity "abc" "LOCATION" 0 3 "").start < (mkEntity "abcd" "MISC" 2 6 "").endPos ∧
      (mkEntity "abcd" "MISC" 2 6 "").start < (mkEntity "abc" "LOCATION" 0 3 "").endPos) ∧
    ((mkEntity "abc" "LOCATION" 0 3 "").text.length
        ≠ (mkEntity "abcd" "MISC" 2 6 "").text.length) ∧
    removeOverlappingEntities [mkEntity "abc" "LOCATION" 0 3 "", mkEntity "abcd" "MISC" 2 6 ""]
      = [mkEntity "abcd" "MISC" 2 6 ""] :=
  ⟨by decide, by decide, by
    have h := (C5_longest_wins (mkEntity "abc" "LOCATION" 0 3 "")
      (mkEntity "abcd" "MISC" 2 6 "") (by decide)).1 (by decide)
    simpa using h⟩

theorem mem_foldl_insert :
    ∀ (s acc : List Entity) (x : Entity),
      x ∈ List.foldl insertEntity acc s → x ∈ acc ∨ x ∈ s := by
  intro s
  induction s with
  | nil => intro acc x h; exact Or.inl h
  | cons e s' ih =>
    intro acc x h
    rw [List.foldl_cons] at h
    rcases ih (insertEntity acc e) x h with h1 | h1
    · rcases mem_insertEntity h1 with h2 | h2
      · exact Or.inl h2
      · exact Or.inr (h2 ▸ List.mem_cons_self e s')
    · exact Or.inr (List.mem_cons_of_mem e h1)

theorem mem_removeOverlapping {l : List Entity} {x : Entity}
    (h : x ∈ removeOverlappingEntities l) : x ∈ l := by
  unfold removeOverlappingEntities at h
  rcases mem_foldl_insert _ _ _ h with h1 | h1
  · simp at h1
  · exact (List.perm_insertionSort startLE l).mem_iff.mp h1

/-- Claim C6: no entity returned by `extract_entities` carries an excluded
type, neither as its mapped `type` nor as its raw tagger `label`. -/
theorem C6_excluded_types (spans : List FlairSpan) (ams : List AddressMatch)
    (e : Entity) (he : e ∈ extractEntities spans ams) :
    e.type ∉ excludedTypes ∧ e.label ∉ excludedTypes := by
  have hm := mem_removeOverlapping he
  rcases List.mem_append.mp hm with h1 | h1
  · rcases List.mem_filterMap.mp h1 with ⟨sp, _, hspe⟩
    simp only [spanToEntity] at hspe
    by_cases ht : sp.tag ∈ excludedTypes
    · rw [if_pos ht] at hspe
      exact absurd hspe (by simp)
    · rw [if_neg ht] at hspe
      by_cases hmap : mapFlairEntityType sp.tag ∈ excludedTypes
      · rw [if_pos hmap] at hspe
        exact absurd hspe (by simp)
      · rw [if_neg hmap] at hspe
        by_cases hval : isValidEntity sp.text (mapFlairEntityType sp.tag) = true
        · rw [if_pos hval] at hspe
          have hee := Option.some.inj hspe
          subst hee
          exact ⟨hmap, ht⟩
        · rw [if_neg hval] at hspe
          exact absurd hspe (by simp)
  · rcases List.mem_map.mp h1 with ⟨m, _, rfl⟩
    exact ⟨show "ADDRESS" ∉ excludedTypes by decide,
           show ("" : String) ∉ excludedTypes by decide⟩

/-- Witness for C6 at a concrete tagger span. -/
theorem C6_excluded_types_witness :
    (mkEntity "Barack Obama" "PERSON" 0 12 "PER"
        ∈ extractEntities [⟨"Barack Obama", "PER", 0, 12⟩] []) ∧
    (mkEntity "Barack Obama" "PERSON" 0 12 "PER").type ∉ excludedTypes ∧
    (mkEntity "Barack Obama" "PERSON" 0 12 "PER").label ∉ excludedTypes :=
  ⟨by decide, C6_excluded_types [⟨"Barack Obama", "PER", 0, 12⟩] [] _ (by decide)⟩

/-- Witness for C7 at a concrete geocoded entity. -/
theorem C7_geocoding_idempotent_witness :
    (({ mkEntity "London" "LOCATION" 0 6 "" with latitude := some 51 } : Entity).latitude.isSome
        = true) ∧
    processPlaceEntity [] oracle0 { mkEntity "London" "LOCATION" 0 6 "" with latitude := some 51 }
      = ({ mkEntity "London" "LOCATION" 0 6 "" with latitude := some 51 }, []) :=
  ⟨rfl, C7_geocoding_idempotent [] oracle0 _ rfl⟩

/-! ### Result characterizations of the geocoding strategies -/

theorem ctxGeopyLoop_result (resp : String → GeopyOut) (e : Entity) :
    ∀ terms : List String, (ctxGeopyLoop resp e terms).1 = none ∨
      ∃ lat lon addr term, (ctxGeopyLoop resp e terms).1 =
        some { e with latitude := some lat, longitude := some lon,
                      location_name := some addr,
                      geocoding_source := some "geopy_contextual",
                      search_term_used := some term } := by
  intro terms
  induction terms with
  | nil => exact Or.inl rfl
  | cons t rest ih =>
    cases hr : resp t with
    | found lat lon addr =>
      exact Or.inr ⟨lat, lon, addr, t, by simp [ctxGeopyLoop, hr]⟩
    | noResult => simpa [ctxGeopyLoop, hr] using ih
    | raised => simpa [ctxGeopyLoop, hr] using ih

theorem ctxOsmLoop_result (resp : String → OsmOut) (e : Entity) :
    ∀ terms : List String, (ctxOsmLoop resp e terms).1 = none ∨
      ∃ lat lon nm term, (ctxOsmLoop resp e terms).1 =
        some { e with latitude := some lat, longitude := some lon,
                      location_name := some nm,
                      geocoding_source := some "openstreetmap_contextual",
                      search_term_used := some term } := by
  intro terms
  induction terms with
  | nil => exact Or.inl rfl
  | cons t rest ih =>
    cases hr : resp t with
    | found loc =>
      exact Or.inr ⟨loc.lat, loc.lon, loc.displayName, t, by simp [ctxOsmLoop, hr]⟩
    | raised => simpa [ctxOsmLoop, hr] using ih
    | notOk => simpa [ctxOsmLoop, hr] using ih
    | empty => simpa [ctxOsmLoop, hr] using ih

theorem pyGeoLoop_result (e : Entity) :
    ∀ gl : List (String × GeopyOut), (pyGeoLoop e gl).1 = none ∨
      ∃ lat lon addr name, (pyGeoLoop e gl).1 =
        some { e with latitude := some lat, longitude := some lon,
                      location_name := some addr,
                      geocoding_source := some ("geopy_" ++ name) } := by
  intro gl
  induction gl with
  | nil => exact Or.inl rfl
  | cons p rest ih =>
    cases hr : p.2 with
    | found lat lon addr =>
      refine Or.inr ⟨lat, lon, addr, p.1, ?_⟩
      rcases p with ⟨name, out⟩
      simp at hr
      simp [pyGeoLoop, hr]
    | noResult =>
      rcases p with ⟨name, out⟩
      simp at hr
      simpa [pyGeoLoop, hr] using ih
    | raised =>
      rcases p with ⟨name, out⟩
      simp at hr
      simpa [pyGeoLoop, hr] using ih

theorem aggressiveLoop_result (resp : String → OsmOut) (e : Entity) :
    ∀ terms : List String, (aggressiveLoop resp e terms).1 = none ∨
      ∃ lat lon nm term, (aggressiveLoop resp e terms).1 =
        some { e with latitude := some lat, longitude := some lon,
                      location_name := some nm,
                      geocoding_source := some "openstreetmap_aggressive",
                      search_term_used := some term } := by
  intro terms
  induction terms with
  | nil => exact Or.inl rfl
  | cons t rest ih =>
    cases hr : resp t with
    | found loc =>
      exact Or.inr ⟨loc.lat, loc.lon, loc.displayName, t, by simp [aggressiveLoop, hr]⟩
    | raised => simpa [aggressiveLoop, hr] using ih
    | notOk => simpa [aggressiveLoop, hr] using ih
    | empty => simpa [aggressiveLoop, hr] using ih

theorem tryContextual_result (clues : List String) (orc : GeoOracle) (e : Entity) :
    (tryContextualGeocoding clues orc e).2.1 = e ∨
      ∃ lat lon nm src term, (tryContextualGeocoding clues orc e).2.1 =
        { e with latitude := some lat, longitude := some lon,
                 location_name := some nm, geocoding_source := some src,
                 search_term_used := some term } := by
  unfold tryContextualGeocoding
  by_cases hc : clues.isEmpty
  · simp [hc]
  · rw [if_neg hc]
    have hgp : (ctxGeopyPart orc e (searchVariations clues e.text)).1 = none ∨
        ∃ lat lon addr term,
          (ctxGeopyPart orc e (searchVariations clues e.text)).1 =
            some { e with latitude := some lat, longitude := some lon,
                          location_name := some addr,
                          geocoding_source := some "geopy_contextual",
                          search_term_used := some term } := by
      unfold ctxGeopyPart
      by_cases hav : orc.geopyAvailable
      · rw [if_pos hav]; exact ctxGeopyLoop_result _ _ _
      · rw [if_neg hav]; exact Or.inl rfl
    dsimp only
    rcases hgp with hgp | ⟨lat, lon, addr, term, hgp⟩
    · rw [hgp]
      dsimp only
      rcases ctxOsmLoop_result orc.contextualOsm e
          ((searchVariations clues e.text).take 3) with hosm | ⟨lat, lon, nm, term, hosm⟩
      · rw [hosm]
        exact Or.inl rfl
      · rw [hosm]
        exact Or.inr ⟨lat, lon, nm, "openstreetmap_contextual", term, rfl⟩
    · rw [hgp]
      exact Or.inr ⟨lat, lon, addr, "geopy_contextual", term, rfl⟩

theorem tryPython_result (orc : GeoOracle) (e : Entity) :
    (tryPythonGeocoding orc e).2.1 = e ∨
      ∃ lat lon nm name, (tryPythonGeocoding orc e).2.1 =
        { e with latitude := some lat, longitude := some lon,
                 location_name := some nm,
                 geocoding_source := some ("geopy_" ++ name) } := by
  unfold tryPythonGeocoding
  by_cases hav : orc.geopyAvailable
  · rw [if_pos hav]
    dsimp only
    rcases pyGeoLoop_result e [("nominatim", orc.nominatim), ("arcgis", orc.arcgis)]
        with h | ⟨lat, lon, nm, name, h⟩
    · rw [h]
      exact Or.inl rfl
    · rw [h]
      exact Or.inr ⟨lat, lon, nm, name, rfl⟩
  · rw [if_neg hav]
    exact Or.inl rfl

theorem tryAggressive_result (orc : GeoOracle) (e : Entity) :
    (tryAggressiveGeocoding orc e).2.1 = e ∨
      ∃ lat lon nm term, (tryAggressiveGeocoding orc e).2.1 =
        { e with latitude := some lat, longitude := some lon,
                 location_name := some nm,
                 geocoding_source := some "openstreetmap_aggressive",
                 search_term_used := some term } := by
  unfold tryAggressiveGeocoding
  dsimp only
  rcases aggressiveLoop_result orc.aggressiveOsm e (aggressiveVariations e.text)
      with h | ⟨lat, lon, nm, term, h⟩
  · rw [h]
    exact Or.inl rfl
  · rw [h]
    exact Or.inr ⟨lat, lon, nm, term, rfl⟩

/-- Latitude, longitude and location name are present together. -/
def geoTogether3 (x : Entity) : Prop :=
  x.latitude.isSome = x.longitude.isSome ∧
  x.latitude.isSome = x.location_name.isSome

/-- All five geocoding fields are present together. -/
def geoTogether5 (x : Entity) : Prop :=
  geoTogether3 x ∧
  x.latitude.isSome = x.geocoding_source.isSome ∧
  x.latitude.isSome = x.search_term_used.isSome

/-- Counterexample to claim C2 as stated: a successful
`_try_python_geocoding` resolution populates latitude (with longitude,
location name and source) but leaves `search_term_used` unset — a partial
field set. -/
theorem C2_geocoding_fields_counterexample :
    ((tryPythonGeocoding oracleNominatimHit (mkEntity "London" "LOCATION" 0 6 "")).2.1).latitude.isSome
        = true ∧
    ((tryPythonGeocoding oracleNominatimHit (mkEntity "London" "LOCATION" 0 6 "")).2.1).search_term_used
        = none :=
  ⟨rfl, rfl⟩

/-- Claim C2 (amended): for an entity with no geocoding fields set,
latitude, longitude and `location_name` are always populated together or
not at all; the contextual and aggressive strategies additionally populate
`geocoding_source` and `search_term_used`; `_try_python_geocoding`
populates `geocoding_source` but never `search_term_used`; and
`link_to_openstreetmap` populates neither `geocoding_source` nor
`search_term_used`. -/
theorem C2_geocoding_fields_amended (clues : List String) (orc : GeoOracle)
    (e : Entity) (r : OsmOut)
    (h1 : e.latitude = none) (h2 : e.longitude = none)
    (h3 : e.location_name = none) (h4 : e.geocoding_source = none)
    (h5 : e.search_term_used = none) :
    geoTogether5 ((tryContextualGeocoding clues orc e).2.1) ∧
    (geoTogether3 ((tryPythonGeocoding orc e).2.1) ∧
      ((tryPythonGeocoding orc e).2.1).latitude.isSome
        = ((tryPythonGeocoding orc e).2.1).geocoding_source.isSome ∧
      ((tryPythonGeocoding orc e).2.1).search_term_used = none) ∧
    geoTogether5 ((tryAggressiveGeocoding orc e).2.1) ∧
    (geoTogether3 ((linkToOpenstreetmapEntity r e).1) ∧
      ((linkToOpenstreetmapEntity r e).1).geocoding_source = none ∧
      ((linkToOpenstreetmapEntity r e).1).search_term_used = none) := by
  refine ⟨?_, ⟨?_, ?_, ?_⟩, ?_, ?_⟩
  · rcases tryContextual_result clues orc e with h | ⟨lat, lon, nm, src, term, h⟩ <;>
      simp [h, geoTogether5, geoTogether3, h1, h2, h3, h4, h5]
  · rcases tryPython_result orc e with h | ⟨lat, lon, nm, name, h⟩ <;>
      simp [h, geoTogether3, h1, h2, h3]
  · rcases tryPython_result orc e with h | ⟨lat, lon, nm, name, h⟩ <;>
      simp [h, h1, h4]
  · rcases tryPython_result orc e with h | ⟨lat, lon, nm, name, h⟩ <;>
      simp [h, h5]
  · rcases tryAggressive_result orc e with h | ⟨lat, lon, nm, term, h⟩ <;>
      simp [h, geoTogether5, geoTogether3, h1, h2, h3, h4, h5]
  · unfold linkToOpenstreetmapEntity
    by_cases ht : e.type = "ADDRESS"
    · rw [if_pos ht]
      cases r <;> simp [geoTogether3, h1, h2, h3, h4, h5]
    · rw [if_neg ht]
      simp [geoTogether3, h1, h2, h3, h4, h5]

/-- Witness for the amended C2 at a concrete entity, oracle and response. -/
theorem C2_geocoding_fields_amended_witness :
    ((mkEntity "Soho" "LOCATION" 0 4 "").latitude = none ∧
      (mkEntity "Soho" "LOCATION" 0 4 "").geocoding_source = none ∧
      (mkEntity "Soho" "LOCATION" 0 4 "").search_term_used = none) ∧
    geoTogether5 ((tryContextualGeocoding ["uk"] oracle0 (mkEntity "Soho" "LOCATION" 0 4 "")).2.1) :=
  ⟨⟨rfl, rfl, rfl⟩,
   (C2_geocoding_fields_amended ["uk"] oracle0 (mkEntity "Soho" "LOCATION" 0 4 "")
     OsmOut.raised rfl rfl rfl rfl rfl).1⟩

/-! ### The linking chain carries at most one of the three links -/

theorem pyTruthy_prefix (s t : String) (h : s.data ≠ []) :
    pyTruthy (some (s ++ t)) = true := by
  show (!(s ++ t).data.isEmpty) = true
  rw [String.data_append]
  cases hs : s.data with
  | nil => exact absurd hs h
  | cons c cs => simp

theorem linkToWikidataEntity_fields (r : WdResp) (e : Entity) :
    ((linkToWikidataEntity r e).1.wikipedia_url = e.wikipedia_url ∧
     (linkToWikidataEntity r e).1.britannica_url = e.britannica_url) ∧
    ((linkToWikidataEntity r e).1.wikidata_url = e.wikidata_url ∨
     ∃ u, (linkToWikidataEntity r e).1.wikidata_url
        = some ("http://www.wikidata.org/entity/" ++ u)) := by
  cases r with
  | raised => exact ⟨⟨rfl, rfl⟩, Or.inl rfl⟩
  | notOk => exact ⟨⟨rfl, rfl⟩, Or.inl rfl⟩
  | ok search =>
    cases search with
    | nil => exact ⟨⟨rfl, rfl⟩, Or.inl rfl⟩
    | cons item rest => exact ⟨⟨rfl, rfl⟩, Or.inr ⟨item.id, rfl⟩⟩

theorem linkToWikipediaEntity_fields (r : WpResp) (e : Entity) :
    ((linkToWikipediaEntity r e).1.wikidata_url = e.wikidata_url ∧
     (linkToWikipediaEntity r e).1.britannica_url = e.britannica_url) ∧
    ((linkToWikipediaEntity r e).1.wikipedia_url = e.wikipedia_url ∨
     (pyTruthy e.wikidata_url = false ∧
       ∃ u, (linkToWikipediaEntity r e).1.wikipedia_url
          = some ("https://en.wikipedia.org/wiki/" ++ u))) := by
  unfold linkToWikipediaEntity
  by_cases hw : pyTruthy e.wikidata_url
  · simp [hw]
  · rw [if_neg hw]
    cases r with
    | raised => exact ⟨⟨rfl, rfl⟩, Or.inl rfl⟩
    | notOk => exact ⟨⟨rfl, rfl⟩, Or.inl rfl⟩
    | ok search =>
      cases search with
      | nil => exact ⟨⟨rfl, rfl⟩, Or.inl rfl⟩
      | cons item rest =>
        dsimp only
        by_cases hs : pyTruthy item.snippet
        · refine ⟨⟨by simp [hs], by simp [hs]⟩,
            Or.inr ⟨by simpa using hw,
              urlQuote (pyReplaceSpace item.title), by simp [hs]⟩⟩
        · refine ⟨⟨by simp [hs], by simp [hs]⟩,
            Or.inr ⟨by simpa using hw,
              urlQuote (pyReplaceSpace item.title), by simp [hs]⟩⟩

theorem linkToBritannicaEntity_fields (r : BrResp) (e : Entity) :
    ((linkToBritannicaEntity r e).1.wikidata_url = e.wikidata_url ∧
     (linkToBritannicaEntity r e).1.wikipedia_url = e.wikipedia_url) ∧
    ((linkToBritannicaEntity r e).1.britannica_url = e.britannica_url ∨
     ((pyTruthy e.wikidata_url = false ∧ pyTruthy e.wikipedia_url = false) ∧
       ∃ u, (linkToBritannicaEntity r e).1.britannica_url
          = some ("https://www.britannica.com" ++ u))) := by
  unfold linkToBritannicaEntity
  by_cases hw : (pyTruthy e.wikidata_url || pyTruthy e.wikipedia_url) = true
  · simp [hw]
  · rw [if_neg hw]
    have hor : (pyTruthy e.wikidata_url || pyTruthy e.wikipedia_url) = false := by
      simpa using hw
    rcases Bool.or_eq_false_iff.mp hor with ⟨hw1, hw2⟩
    cases r with
    | raised => exact ⟨⟨rfl, rfl⟩, Or.inl rfl⟩
    | notOk => exact ⟨⟨rfl, rfl⟩, Or.inl rfl⟩
    | ok ms =>
      dsimp only
      cases hf : ms.find? (fun m => britannicaMatches e.text m.linkText) with
      | none => exact ⟨⟨rfl, rfl⟩, Or.inl rfl⟩
      | some m =>
        exact ⟨⟨rfl, rfl⟩, Or.inr ⟨⟨hw1, hw2⟩, m.urlPath, rfl⟩⟩

/-- For an entity entering the chain with no link fields set, at most one
of the three link URLs is populated at the end: Wikipedia is skipped when
Wikidata succeeded, and Britannica is skipped when either predecessor
succeeded. -/
theorem linkChain_count_le_one (rwd : WdResp) (rwp : WpResp) (rbr : BrResp)
    (e : Entity) (h1 : e.wikidata_url = none) (h2 : e.wikipedia_url = none)
    (h3 : e.britannica_url = none) :
    linkCount (linkChainEntity rwd rwp rbr e) ≤ 1 := by
  unfold linkChainEntity linkCount
  obtain ⟨⟨hw1, hb1⟩, hu1⟩ := linkToWikidataEntity_fields rwd e
  obtain ⟨⟨hd2, hb2⟩, hu2⟩ :=
    linkToWikipediaEntity_fields rwp (linkToWikidataEntity rwd e).1
  obtain ⟨⟨hd3, hp3⟩, hu3⟩ :=
    linkToBritannicaEntity_fields rbr
      (linkToWikipediaEntity rwp (linkToWikidataEntity rwd e).1).1
  rcases hu1 with hu1 | ⟨u1, hu1⟩
  · -- Wikidata did not link
    have hwd1 : (linkToWikidataEntity rwd e).1.wikidata_url = none := hu1.trans h1
    rcases hu2 with hu2 | ⟨_, u2, hu2⟩
    · -- Wikipedia did not link either
      have hwp2 :
          (linkToWikipediaEntity rwp (linkToWikidataEntity rwd e).1).1.wikipedia_url
            = none := by rw [hu2, hw1, h2]
      rcases hu3 with hu3 | ⟨_, u3, hu3⟩
      · rw [hd3, hd2, hwd1, hp3, hwp2, hu3, hb2, hb1, h3]
        simp [pyTruthy]
      · rw [hd3, hd2, hwd1, hp3, hwp2, hu3]
        simp [pyTruthy]
    · -- Wikipedia linked; Britannica must have been skipped
      have hwp2 :
          (linkToWikipediaEntity rwp (linkToWikidataEntity rwd e).1).1.wikipedia_url
            = some ("https://en.wikipedia.org/wiki/" ++ u2) := hu2
      rcases hu3 with hu3 | ⟨⟨_, hfalse⟩, _, _⟩
      · rw [hd3, hd2, hwd1, hp3, hwp2, hu3, hb2, hb1, h3]
        have hwt := pyTruthy_prefix "https://en.wikipedia.org/wiki/" u2 (by decide)
        simp [pyTruthy, hwt]
      · rw [hwp2, pyTruthy_prefix "https://en.wikipedia.org/wiki/" u2 (by decide)] at hfalse
        simp at hfalse
  · -- Wikidata linked; Wikipedia and Britannica must have been skipped
    have hwd1 : (linkToWikidataEntity rwd e).1.wikidata_url
        = some ("http://www.wikidata.org/entity/" ++ u1) := hu1
    rcases hu2 with hu2 | ⟨hfalse, _, _⟩
    · have hwp2 :
          (linkToWikipediaEntity rwp (linkToWikidataEntity rwd e).1).1.wikipedia_url
            = none := by rw [hu2, hw1, h2]
      rcases hu3 with hu3 | ⟨⟨hfalse, _⟩, _, _⟩
      · rw [hd3, hd2, hwd1, hp3, hwp2, hu3, hb2, hb1, h3]
        have hwt := pyTruthy_prefix "http://www.wikidata.org/entity/" u1 (by decide)
        simp [pyTruthy, hwt]
      · rw [hd2, hwd1,
          pyTruthy_prefix "http://www.wikidata.org/entity/" u1 (by decide)] at hfalse
        simp at hfalse
    · rw [hwd1, pyTruthy_prefix "http://www.wikidata.org/entity/" u1 (by decide)] at hfalse
      simp at hfalse

/-- Counterexample to claim C3 as stated: even on a run in which every
external search responds successfully, an entity that starts the chain
unlinked ends it with only the Wikidata link — the Wikipedia and
Britannica linkers skip it, so it never carries links from more than one
source category (the amended theorem proves this for every input and
response sequence). -/
theorem C3_multi_category_counterexample :
    pyTruthy (linkChainEntity (.ok [⟨"Q90", some "capital of France"⟩])
        (.ok [⟨"Paris", some "city"⟩]) (.ok [⟨"/topic/Paris", "Paris"⟩])
        (mkEntity "Paris" "LOCATION" 0 5 "")).wikidata_url = true ∧
    (linkChainEntity (.ok [⟨"Q90", some "capital of France"⟩])
        (.ok [⟨"Paris", some "city"⟩]) (.ok [⟨"/topic/Paris", "Paris"⟩])
        (mkEntity "Paris" "LOCATION" 0 5 "")).wikipedia_url = none ∧
    (linkChainEntity (.ok [⟨"Q90", some "capital of France"⟩])
        (.ok [⟨"Paris", some "city"⟩]) (.ok [⟨"/topic/Paris", "Paris"⟩])
        (mkEntity "Paris" "LOCATION" 0 5 "")).britannica_url = none :=
  ⟨rfl, rfl, rfl⟩

/-- Claim C3 (amended): an entity that starts the linking chain unlinked
ends it carrying at most one link among `wikidata_url`, `wikipedia_url`
and `britannica_url`; it can never simultaneously carry links from more
than one of the three sources. -/
theorem C3_at_most_one_link (rwd : WdResp) (rwp : WpResp) (rbr : BrResp)
    (e : Entity) (h1 : e.wikidata_url = none) (h2 : e.wikipedia_url = none)
    (h3 : e.britannica_url = none) :
    linkCount (linkChainEntity rwd rwp rbr e) ≤ 1 :=
  linkChain_count_le_one rwd rwp rbr e h1 h2 h3

/-- Witness for the amended C3: a run where Wikidata answers and the rest
would answer too, ending with exactly one link. -/
theorem C3_at_most_one_link_witness :
    ((mkEntity "Paris" "LOCATION" 0 5 "").wikidata_url = none ∧
      (mkEntity "Paris" "LOCATION" 0 5 "").wikipedia_url = none ∧
      (mkEntity "Paris" "LOCATION" 0 5 "").britannica_url = none) ∧
    linkCount
      (linkChainEntity (.ok [⟨"Q90", some "capital of France"⟩])
        (.ok [⟨"Paris", some "city"⟩]) (.ok [⟨"/topic/Paris", "Paris"⟩])
        (mkEntity "Paris" "LOCATION" 0 5 "")) ≤ 1 :=
  ⟨⟨rfl, rfl, rfl⟩,
   C3_at_most_one_link (.ok [⟨"Q90", some "capital of France"⟩])
     (.ok [⟨"Paris", some "city"⟩]) (.ok [⟨"/topic/Paris", "Paris"⟩])
     (mkEntity "Paris" "LOCATION" 0 5 "") rfl rfl rfl⟩

/-! ### Rate-limit delays (claim C4) -/

theorem cps_call_false (f : CallOutcome → Bool) (o : CallOutcome) (h : f o = false) :
    ∀ t2, callsProperlySlept f (.call o :: t2) = callsProperlySlept f t2 := by
  intro t2
  cases t2 with
  | nil => simp [callsProperlySlept, h]
  | cons ev rest =>
    cases ev with
    | call o2 => simp [callsProperlySlept, h]
    | sleep => simp [callsProperlySlept, h]

theorem cps_call_sleep (f : CallOutcome → Bool) (o : CallOutcome) (h : f o = true) :
    ∀ t2, callsProperlySlept f (.call o :: .sleep :: t2) = callsProperlySlept f t2 := by
  intro t2
  simp [callsProperlySlept, h]

/-- The sleep-selector of the contextual geocoder: the delay is reached
exactly after calls that complete without a usable result. -/
def ctxSleepSel : CallOutcome → Bool := fun o => o == CallOutcome.noResult

theorem ctxGeopyLoop_trace_none (resp : String → GeopyOut) (e : Entity) :
    ∀ (terms : List String) (t2 : List Event),
      (ctxGeopyLoop resp e terms).1 = none →
      callsProperlySlept ctxSleepSel ((ctxGeopyLoop resp e terms).2 ++ t2)
        = callsProperlySlept ctxSleepSel t2 := by
  intro terms
  induction terms with
  | nil => intro t2 _; rfl
  | cons t rest ih =>
    intro t2 hnone
    cases hr : resp t with
    | found lat lon addr => simp [ctxGeopyLoop, hr] at hnone
    | noResult =>
      simp only [ctxGeopyLoop, hr] at hnone ⊢
      rw [List.cons_append, List.cons_append, cps_call_sleep _ _ rfl]
      exact ih t2 hnone
    | raised =>
      simp only [ctxGeopyLoop, hr] at hnone ⊢
      rw [List.cons_append, cps_call_false _ _ rfl]
      exact ih t2 hnone

theorem ctxGeopyLoop_trace_some (resp : String → GeopyOut) (e : Entity) :
    ∀ (terms : List String) (x : Entity),
      (ctxGeopyLoop resp e terms).1 = some x →
      callsProperlySlept ctxSleepSel (ctxGeopyLoop resp e terms).2 = true := by
  intro terms
  induction terms with
  | nil => intro x h; simp [ctxGeopyLoop] at h
  | cons t rest ih =>
    intro x h
    cases hr : resp t with
    | found lat lon addr => simp [ctxGeopyLoop, hr, callsProperlySlept, ctxSleepSel]
    | noResult =>
      simp only [ctxGeopyLoop, hr] at h ⊢
      rw [cps_call_sleep _ _ rfl]
      exact ih x h
    | raised =>
      simp only [ctxGeopyLoop, hr] at h ⊢
      rw [cps_call_false _ _ rfl]
      exact ih x h

theorem ctxOsmLoop_trace_none (resp : String → OsmOut) (e : Entity) :
    ∀ (terms : List String) (t2 : List Event),
      (ctxOsmLoop resp e terms).1 = none →
      callsProperlySlept ctxSleepSel ((ctxOsmLoop resp e terms).2 ++ t2)
        = callsProperlySlept ctxSleepSel t2 := by
  intro terms
  induction terms with
  | nil => intro t2 _; rfl
  | cons t rest ih =>
    intro t2 hnone
    cases hr : resp t with
    | found loc => simp [ctxOsmLoop, hr] at hnone
    | raised =>
      simp only [ctxOsmLoop, hr] at hnone ⊢
      rw [List.cons_append, cps_call_false _ _ rfl]
      exact ih t2 hnone
    | notOk =>
      simp only [ctxOsmLoop, hr] at hnone ⊢
      rw [List.cons_append, List.cons_append, cps_call_sleep _ _ rfl]
      exact ih t2 hnone
    | empty =>
      simp only [ctxOsmLoop, hr] at hnone ⊢
      rw [List.cons_append, List.cons_append, cps_call_sleep _ _ rfl]
      exact ih t2 hnone

theorem ctxOsmLoop_trace_some (resp : String → OsmOut) (e : Entity) :
    ∀ (terms : List String) (x : Entity),
      (ctxOsmLoop resp e terms).1 = some x →
      callsProperlySlept ctxSleepSel (ctxOsmLoop resp e terms).2 = true := by
  intro terms
  induction terms with
  | nil => intro x h; simp [ctxOsmLoop] at h
  | cons t rest ih =>
    intro x h
    cases hr : resp t with
    | found loc => simp [ctxOsmLoop, hr, callsProperlySlept, ctxSleepSel]
    | raised =>
      simp only [ctxOsmLoop, hr] at h ⊢
      rw [cps_call_false _ _ rfl]
      exact ih x h
    | notOk =>
      simp only [ctxOsmLoop, hr] at h ⊢
      rw [cps_call_sleep _ _ rfl]
      exact ih x h
    | empty =>
      simp only [ctxOsmLoop, hr] at h ⊢
      rw [cps_call_sleep _ _ rfl]
      exact ih x h

theorem ctxGeopyPart_trace_none (orc : GeoOracle) (e : Entity)
    (variations : List String) (t2 : List Event)
    (h : (ctxGeopyPart orc e variations).1 = none) :
    callsProperlySlept ctxSleepSel ((ctxGeopyPart orc e variations).2 ++ t2)
      = callsProperlySlept ctxSleepSel t2 := by
  unfold ctxGeopyPart at h ⊢
  by_cases hav : orc.geopyAvailable
  · rw [if_pos hav] at h ⊢
    exact ctxGeopyLoop_trace_none _ _ _ _ h
  · rw [if_neg hav]
    rfl

theorem ctxGeopyPart_trace_some (orc : GeoOracle) (e : Entity)
    (variations : List String) (x : Entity)
    (h : (ctxGeopyPart orc e variations).1 = some x) :
    callsProperlySlept ctxSleepSel (ctxGeopyPart orc e variations).2 = true := by
  unfold ctxGeopyPart at h ⊢
  by_cases hav : orc.geopyAvailable
  · rw [if_pos hav] at h ⊢
    exact ctxGeopyLoop_trace_some _ _ _ _ h
  · rw [if_neg hav] at h
    simp at h

/-- An oracle whose contextual geopy geocoder answers every query:
this makes the success path of `_try_contextual_geocoding` return
before its rate-limit sleep. -/
def oracleCtxHit : GeoOracle :=
  { geopyAvailable := true,
    contextualGeopy := fun _ => .found 51 0 "Soho, London, UK",
    nominatim := .raised,
    arcgis := .raised,
    contextualOsm := fun _ => .raised,
    aggressiveOsm := fun _ => .raised }

/-- Counterexample to claim C4 as stated: a raising Wikidata call skips
the post-call delay, and a successful contextual geocoding call returns
before its delay — in both traces a call is never followed by a sleep. -/
theorem C4_rate_limit_counterexample :
    everyCallSlept (linkToWikidataEntity .raised (mkEntity "Paris" "LOCATION" 0 5 "")).2
        = false ∧
    everyCallSlept
        (tryContextualGeocoding ["uk"] oracleCtxHit (mkEntity "Soho" "LOCATION" 0 4 "")).2.2
      = false :=
  ⟨rfl, rfl⟩

/-- Claim C4 (amended): in `link_to_wikidata` the rate-limit delay follows
exactly the calls that do not raise; in `_try_contextual_geocoding` it
follows exactly the calls that complete without raising and without a
usable result — a raising call skips the delay and a successful call
returns before it. -/
theorem C4_rate_limit_amended :
    (∀ (r : WdResp) (e : Entity),
      callsProperlySlept (fun o => o != CallOutcome.raised)
        (linkToWikidataEntity r e).2 = true) ∧
    (∀ (clues : List String) (orc : GeoOracle) (e : Entity),
      callsProperlySlept ctxSleepSel (tryContextualGeocoding clues orc e).2.2 = true) := by
  constructor
  · intro r e
    cases r with
    | raised => rfl
    | notOk => rfl
    | ok search => cases search <;> rfl
  · intro clues orc e
    unfold tryContextualGeocoding
    by_cases hc : clues.isEmpty
    · rw [if_pos hc]
      rfl
    · rw [if_neg hc]
      dsimp only
      cases hg : (ctxGeopyPart orc e (searchVariations clues e.text)).1 with
      | some eg =>
        dsimp only
        exact ctxGeopyPart_trace_some _ _ _ _ hg
      | none =>
        dsimp only
        cases ho : (ctxOsmLoop orc.contextualOsm e
            ((searchVariations clues e.text).take 3)).1 with
        | some eo =>
          dsimp only
          rw [ctxGeopyPart_trace_none _ _ _ _ hg]
          exact ctxOsmLoop_trace_some _ _ _ _ ho
        | none =>
          dsimp only
          rw [ctxGeopyPart_trace_none _ _ _ _ hg]
          have := ctxOsmLoop_trace_none orc.contextualOsm e
            ((searchVariations clues e.text).take 3) [] ho
          rw [List.append_nil] at this
          rw [this]
          rfl

/-! ### Context prioritization (claim C9) -/

theorem foldl_append_if_eq_filter (clues : List String) :
    ∀ (l acc : List String),
      l.foldl (fun acc p => if p ∈ clues then acc ++ [p] else acc) acc
        = acc ++ l.filter (fun p => decide (p ∈ clues)) := by
  intro l
  induction l with
  | nil => intro acc; simp
  | cons x rest ih =>
    intro acc
    rw [List.foldl_cons]
    by_cases hx : x ∈ clues
    · rw [if_pos hx, ih, List.filter_cons_of_pos (by simpa using hx)]
      simp
    · rw [if_neg hx, ih, List.filter_cons_of_neg (by simpa using hx)]

theorem foldl_dedup_eq_filter :
    ∀ (l : List String), l.Nodup → ∀ acc : List String,
      l.foldl (fun acc c => if c ∈ acc then acc else acc ++ [c]) acc
        = acc ++ l.filter (fun c => decide (c ∉ acc)) := by
  intro l
  induction l with
  | nil => intro _ acc; simp
  | cons x rest ih =>
    intro hnd acc
    rcases List.nodup_cons.mp hnd with ⟨hx, hnd2⟩
    rw [List.foldl_cons]
    by_cases hmem : x ∈ acc
    · rw [if_pos hmem, ih hnd2 acc, List.filter_cons_of_neg (by simpa using hmem)]
    · rw [if_neg hmem, ih hnd2 (acc ++ [x]), List.filter_cons_of_pos (by simpa using hmem)]
      rw [List.append_assoc, List.singleton_append]
      congr 2
      apply List.filter_congr
      intro c hc
      have hcx : c ≠ x := fun h => hx (h ▸ hc)
      simp [hcx]

theorem phase1_fold_eq (tl : List Char) :
    ∀ (l : List (String × List String)) (acc : List String),
      l.foldl (fun acc kv =>
        if kv.2.any (fun pat => strInL pat.data tl) then acc ++ [kv.1] else acc) acc
      = acc ++ (l.filter (fun kv => kv.2.any (fun pat => strInL pat.data tl))).map Prod.fst := by
  intro l
  induction l with
  | nil => intro acc; simp
  | cons kv rest ih =>
    intro acc
    rw [List.foldl_cons]
    by_cases hk : kv.2.any (fun pat => strInL pat.data tl) = true
    · rw [if_pos hk, ih]
      simp [List.filter_cons, hk]
    · rw [if_neg hk, ih]
      simp [List.filter_cons, hk]

theorem contextCluesPhase1_eq (tl : List Char) :
    contextCluesPhase1 tl
      = (majorLocations.filter
          (fun kv => kv.2.any (fun pat => strInL pat.data tl))).map Prod.fst := by
  unfold contextCluesPhase1
  rw [phase1_fold_eq]
  simp

theorem nodup_append_if_new (acc : List String) (x : String) (h : acc.Nodup) :
    (if x ∈ acc then acc else acc ++ [x]).Nodup := by
  by_cases hx : x ∈ acc
  · rw [if_pos hx]; exact h
  · rw [if_neg hx]
    rw [List.nodup_append]
    refine ⟨h, List.nodup_singleton x, ?_⟩
    intro a ha hax
    exact hx ((List.mem_singleton.mp hax) ▸ ha)

theorem mem_append_if_new (acc : List String) (b x : String) (h : x ∈ acc) :
    x ∈ (if b ∈ acc then acc else acc ++ [b]) := by
  by_cases hb : b ∈ acc
  · rw [if_pos hb]; exact h
  · rw [if_neg hb]; exact List.mem_append_left _ h

theorem foldl_nodup {β : Type} (f : List String → β → List String)
    (hf : ∀ acc b, acc.Nodup → (f acc b).Nodup) :
    ∀ (l : List β) (acc : List String), acc.Nodup → (l.foldl f acc).Nodup := by
  intro l
  induction l with
  | nil => intro acc h; exact h
  | cons b rest ih =>
    intro acc h
    rw [List.foldl_cons]
    exact ih (f acc b) (hf acc b h)

theorem foldl_mem {β : Type} (f : List String → β → List String)
    (hf : ∀ acc b x, x ∈ acc → x ∈ f acc b) :
    ∀ (l : List β) (acc : List String) (x : String), x ∈ acc → x ∈ l.foldl f acc := by
  intro l
  induction l with
  | nil => intro acc x h; exact h
  | cons b rest ih =>
    intro acc x h
    rw [List.foldl_cons]
    exact ih (f acc b) x (hf acc b x h)

theorem contextCluesPhase2_nodup (entities : List Entity) (acc : List String)
    (h : acc.Nodup) : (contextCluesPhase2 entities acc).Nodup := by
  unfold contextCluesPhase2
  apply foldl_nodup _ _ _ _ h
  intro acc2 e h2
  by_cases ht : e.type ∈ (["LOCATION", "GPE", "FACILITY"] : List String)
  · rw [if_pos ht]
    apply foldl_nodup _ _ _ _ h2
    intro acc3 kv h3
    by_cases hcond : (kv.2.contains ((pyLowerL e.text.data).asString)
        || kv.2.any (fun pat => strInL pat.data (pyLowerL e.text.data))) = true
    · rw [if_pos hcond]
      exact nodup_append_if_new acc3 kv.1 h3
    · rw [if_neg hcond]
      exact h3
  · rw [if_neg ht]
    exact h2

theorem contextCluesPhase3_nodup (text : String) (acc : List String)
    (h : acc.Nodup) : (contextCluesPhase3 text acc).Nodup := by
  unfold contextCluesPhase3
  apply foldl_nodup _ _ _ _ h
  intro acc2 kv h2
  by_cases hcond : kv.2.any (fun m => reSearch m text) = true
  · rw [if_pos hcond]
    exact nodup_append_if_new acc2 kv.1 h2
  · rw [if_neg hcond]
    exact h2

theorem contextClues_nodup (text : String) (entities : List Entity) :
    (contextClues text entities).Nodup := by
  unfold contextClues
  apply contextCluesPhase3_nodup
  apply contextCluesPhase2_nodup
  rw [contextCluesPhase1_eq]
  have hkeys : (majorLocations.map Prod.fst).Nodup := by decide
  exact List.Nodup.sublist
    (List.Sublist.map Prod.fst (List.filter_sublist majorLocations)) hkeys

theorem mem_contextClues_of_phase1 (text : String) (entities : List Entity)
    (x : String) (h : x ∈ contextCluesPhase1 (pyLowerL text.data)) :
    x ∈ contextClues text entities := by
  unfold contextClues
  apply foldl_mem
  · intro acc2 kv y hy
    by_cases hcond : kv.2.any (fun m => reSearch m text) = true
    · rw [if_pos hcond]
      exact mem_append_if_new acc2 kv.1 y hy
    · rw [if_neg hcond]
      exact hy
  · unfold contextCluesPhase2
    apply foldl_mem
    · intro acc2 e y hy
      by_cases ht : e.type ∈ (["LOCATION", "GPE", "FACILITY"] : List String)
      · rw [if_pos ht]
        apply foldl_mem
        · intro acc3 kv z hz
          by_cases hcond : (kv.2.contains ((pyLowerL e.text.data).asString)
              || kv.2.any (fun pat => strInL pat.data (pyLowerL e.text.data))) = true
          · rw [if_pos hcond]
            exact mem_append_if_new acc3 kv.1 z hz
          · rw [if_neg hcond]
            exact hz
        · exact hy
      · rw [if_neg ht]
        exact hy
    · exact h

theorem paris_mem_clues (text : String) (entities : List Entity)
    (hp : pyIn "paris" (pyLower text) = true) :
    "paris" ∈ contextClues text entities := by
  apply mem_contextClues_of_phase1
  rw [contextCluesPhase1_eq]
  refine List.mem_map.mpr ⟨("paris", ["paris"]), List.mem_filter.mpr ⟨?_, ?_⟩, rfl⟩
  · simp [majorLocations]
  · show (["paris"].any fun pat => strInL pat.data (pyLowerL text.data)) = true
    have hp2 : strInL "paris".data (pyLowerL text.data) = true := hp
    simp [hp2]

theorem uk_mem_clues (text : String) (entities : List Entity)
    (hu : pyIn "uk" (pyLower text) = true) :
    "uk" ∈ contextClues text entities := by
  apply mem_contextClues_of_phase1
  rw [contextCluesPhase1_eq]
  refine List.mem_map.mpr
    ⟨("uk", ["uk", "united kingdom", "britain", "great britain"]),
     List.mem_filter.mpr ⟨?_, ?_⟩, rfl⟩
  · simp [majorLocations]
  · show ((["uk", "united kingdom", "britain", "great britain"]).any
        fun pat => strInL pat.data (pyLowerL text.data)) = true
    have hu2 : strInL "uk".data (pyLowerL text.data) = true := hu
    simp [hu2]

theorem prioritizeClues_eq (clues : List String) (hnd : clues.Nodup) :
    prioritizeClues clues
      = ((priorityOrder.filter (fun p => decide (p ∈ clues)))
          ++ clues.filter (fun c => decide (c ∉ priorityOrder))).take 3 := by
  unfold prioritizeClues
  dsimp only
  rw [foldl_append_if_eq_filter clues priorityOrder [], List.nil_append,
    foldl_dedup_eq_filter clues hnd]
  congr 2
  apply List.filter_congr
  intro c hc
  have hiff : (c ∈ priorityOrder.filter (fun p => decide (p ∈ clues)))
      ↔ c ∈ priorityOrder := by
    rw [List.mem_filter]
    exact ⟨fun h => h.1, fun h => ⟨h, by simpa using hc⟩⟩
  simp [hiff]

theorem indexOf_append_not_mem {x : String} :
    ∀ (l1 l2 : List String), x ∉ l1 →
      (l1 ++ l2).indexOf x = l1.length + l2.indexOf x := by
  intro l1
  induction l1 with
  | nil => intro l2 _; simp
  | cons a t ih =>
    intro l2 h
    have hxa : a ≠ x := fun he => h (he ▸ List.mem_cons_self a t)
    rw [List.cons_append, List.indexOf_cons_ne _ hxa,
      ih l2 (fun hm => h (List.mem_cons_of_mem a hm))]
    simp only [List.length_cons]
    omega

theorem indexOf_lt_of_mem_take {x : String} :
    ∀ (l : List String) (n : Nat), x ∈ l.take n → l.indexOf x < n := by
  intro l
  induction l with
  | nil => intro n h; simp at h
  | cons a t ih =>
    intro n h
    cases n with
    | zero => simp at h
    | succ m =>
      by_cases hxa : x = a
      · subst hxa
        rw [List.indexOf_cons_self]
        omega
      · rw [List.take_succ_cons] at h
        rcases List.mem_cons.mp h with h1 | h1
        · exact absurd h1 hxa
        · rw [List.indexOf_cons_ne _ (fun he => hxa he.symm)]
          have := ih m h1
          omega

theorem mem_take_of_indexOf_lt {x : String} :
    ∀ (l : List String) (n : Nat), x ∈ l → l.indexOf x < n → x ∈ l.take n := by
  intro l
  induction l with
  | nil => intro n h _; simp at h
  | cons a t ih =>
    intro n hm hidx
    cases n with
    | zero => simp at hidx
    | succ m =>
      rw [List.take_succ_cons]
      by_cases hxa : x = a
      · exact hxa ▸ List.mem_cons_self a (t.take m)
      · rcases List.mem_cons.mp hm with h1 | h1
        · exact absurd h1 hxa
        · rw [List.indexOf_cons_ne _ (fun he => hxa he.symm)] at hidx
          exact List.mem_cons_of_mem a (ih m h1 (by omega))

theorem indexOf_take_eq {x : String} :
    ∀ (l : List String) (n : Nat), l.indexOf x < n →
      (l.take n).indexOf x = l.indexOf x := by
  intro l
  induction l with
  | nil => intro n _; simp
  | cons a t ih =>
    intro n hidx
    cases n with
    | zero => simp at hidx
    | succ m =>
      rw [List.take_succ_cons]
      by_cases hxa : x = a
      · subst hxa
        rw [List.indexOf_cons_self, List.indexOf_cons_self]
      · rw [List.indexOf_cons_ne _ (fun he => hxa he.symm),
          List.indexOf_cons_ne _ (fun he => hxa he.symm)]
        rw [List.indexOf_cons_ne _ (fun he => hxa he.symm)] at hidx
        have := ih m (by omega)
        omega

/-- Counterexample to the universal "paris before uk" sentence of claim
C9: the text below contains both "Paris" and "UK", yet the returned
context list is truncated to 3 entries and does not contain "uk" at
all. -/
theorem C9_context_priority_counterexample :
    pyIn "Paris" "London and New York and Paris, UK" = true ∧
    pyIn "UK" "London and New York and Paris, UK" = true ∧
    detectGeographicalContext "London and New York and Paris, UK" []
      = ["london", "new york", "paris"] ∧
    "uk" ∉ detectGeographicalContext "London and New York and Paris, UK" [] :=
  ⟨by decide, by decide, by decide, by decide⟩

/-- Claim C9 (amended): the detector returns at most 3 keys, ordered with
the detected priority-list keys first (in priority order) followed by the
remaining detected keys in discovery order; for text containing both
"Paris" and "UK", "paris" is always in the returned list and precedes
"uk" whenever "uk" survives the truncation to 3 entries. -/
theorem C9_context_priority (text : String) (entities : List Entity) :
    (detectGeographicalContext text entities).length ≤ 3 ∧
    detectGeographicalContext text entities
      = ((priorityOrder.filter (fun p => decide (p ∈ contextClues text entities)))
          ++ (contextClues text entities).filter
              (fun c => decide (c ∉ priorityOrder))).take 3 ∧
    (pyIn "paris" (pyLower text) = true → pyIn "uk" (pyLower text) = true →
      "paris" ∈ detectGeographicalContext text entities ∧
      ("uk" ∈ detectGeographicalContext text entities →
        (detectGeographicalContext text entities).indexOf "paris"
          < (detectGeographicalContext text entities).indexOf "uk")) := by
  have hnd := contextClues_nodup text entities
  have heq : detectGeographicalContext text entities
      = ((priorityOrder.filter (fun p => decide (p ∈ contextClues text entities)))
          ++ (contextClues text entities).filter
              (fun c => decide (c ∉ priorityOrder))).take 3 := by
    unfold detectGeographicalContext
    exact prioritizeClues_eq _ hnd
  refine ⟨?_, heq, ?_⟩
  · rw [heq]
    exact List.length_take_le 3 _
  · intro hp hu
    have hpc := paris_mem_clues text entities hp
    have huc := uk_mem_clues text entities hu
    set clues := contextClues text entities with hclues
    set q : String → Bool := fun p => decide (p ∈ clues) with hq
    have hqp : q "paris" = true := by simp [hq, hpc]
    have hqu : q "uk" = true := by simp [hq, huc]
    have hsplit : priorityOrder
        = ["london", "new york"] ++ "paris" ::
            (["tokyo", "sydney"] ++ "uk" ::
              ["usa", "canada", "australia", "france", "germany"]) := rfl
    have hfil : priorityOrder.filter q
        = (["london", "new york"].filter q)
            ++ "paris" :: ((["tokyo", "sydney"].filter q)
              ++ "uk" :: (["usa", "canada", "australia", "france", "germany"].filter q)) := by
      rw [hsplit, List.filter_append, List.filter_cons_of_pos hqp,
        List.filter_append, List.filter_cons_of_pos hqu]
    set f1 := ["london", "new york"].filter q with hf1
    set B := clues.filter (fun c => decide (c ∉ priorityOrder)) with hB
    have hL : priorityOrder.filter q ++ B
        = f1 ++ "paris" :: (((["tokyo", "sydney"].filter q)
            ++ "uk" :: (["usa", "canada", "australia", "france", "germany"].filter q)) ++ B) := by
      rw [hfil, List.append_assoc, List.cons_append]
    have hparis_not_f1 : "paris" ∉ f1 := by
      intro hmem
      have := List.mem_of_mem_filter hmem
      simp at this
    have hidxp : (priorityOrder.filter q ++ B).indexOf "paris" = f1.length := by
      rw [hL, indexOf_append_not_mem f1 _ hparis_not_f1, List.indexOf_cons_self]
      omega
    have hidxu : f1.length < (priorityOrder.filter q ++ B).indexOf "uk" := by
      rw [hL, indexOf_append_not_mem f1 _ (by
        intro hmem
        have := List.mem_of_mem_filter hmem
        simp at this)]
      rw [List.indexOf_cons_ne _ (by decide)]
      omega
    have hf1len : f1.length ≤ 2 := List.length_filter_le q ["london", "new york"]
    have hparis_mem_L : "paris" ∈ priorityOrder.filter q ++ B := by
      rw [hL]
      exact List.mem_append_right f1 (List.mem_cons_self _ _)
    constructor
    · rw [heq]
      exact mem_take_of_indexOf_lt _ 3 hparis_mem_L (by omega)
    · intro hukr
      rw [heq] at hukr ⊢
      have hidxu3 := indexOf_lt_of_mem_take _ 3 hukr
      rw [indexOf_take_eq _ 3 hidxu3, indexOf_take_eq _ 3 (by omega)]
      omega

/-- Witness for the amended C9 at a text where both keys survive. -/
theorem C9_context_priority_witness :
    (pyIn "paris" (pyLower "paris uk") = true ∧
      pyIn "uk" (pyLower "paris uk") = true ∧
      "uk" ∈ detectGeographicalContext "paris uk" []) ∧
    ("paris" ∈ detectGeographicalContext "paris uk" [] ∧
      (detectGeographicalContext "paris uk" []).indexOf "paris"
        < (detectGeographicalContext "paris uk" []).indexOf "uk") := by
  refine ⟨⟨by decide, by decide, by decide⟩, ?_⟩
  have h := (C9_context_priority "paris uk" []).2.2 (by decide) (by decide)
  exact ⟨h.1, h.2 (by decide)⟩

end NERFlair
